import Mathlib

/-!
Verification development for the corrosion bytecode pipeline
(`src/lex.rs`, `src/compiler.rs`, `src/value.rs`, `src/vm.rs`).

The Rust source is embedded shallowly:

* `f64` is modelled by `F64`: finite doubles as exact rationals plus
  `nan` / `inf` / `neginf`.  IEEE-754 rounding is not modelled; every
  arithmetic fact proved below only computes values on which binary64
  arithmetic is exact (small integers), and the special-value rules
  (NaN propagation, comparisons and equality involving NaN, division
  by zero) follow IEEE-754 as Rust implements them.
* Rust `panic!` paths (out-of-bounds `Vec` indexing, failed `expect`,
  `usize` underflow, `assert!`) are modelled as explicit `panic`
  results, distinct from `anyhow` errors (`bail!`), which the code can
  catch and which are modelled as `err` results.
* `while` loops become fuel recursion; fuel bounds are chosen so that
  exhaustion is unreachable on the evaluated inputs, and exhaustion is
  a distinct `fuelOut` result, never confused with genuine behaviour.
* `println!` side effects (the VM's `Print` opcode, the parser's
  error report in `Parser::declaration`) are collected into explicit
  `output` / `printed` string lists modelling process stdout.
* Bytes of the source string are treated as characters; all sources
  analysed here are ASCII, where `lex.rs`'s byte indexing and its
  string slicing coincide.
-/

namespace Corrosion

-- Mathlib marks the arithmetic on `ℚ` irreducible; the theorems below
-- evaluate interpreter runs definitionally, so restore reducibility for
-- this file.
attribute [local semireducible] Rat.add Rat.mul Rat.sub Rat.inv

/-! ## The double model (`f64`) -/

/-- Model of Rust `f64`: finite values as exact rationals, plus the
IEEE-754 special values reachable in this interpreter. -/
inductive F64 where
  | nan
  | inf
  | neginf
  | fin (q : ℚ)
  deriving DecidableEq, Repr

namespace F64

/-- IEEE-754 `==` on doubles as Rust's `PartialEq for f64`: `NaN` is not
equal to anything, including itself. (`-0.0 == 0.0` holds in IEEE-754;
`ℚ` has a single zero, so the model agrees.) -/
def beq : F64 → F64 → Bool
  | fin a, fin b => decide (a = b)
  | inf, inf => true
  | neginf, neginf => true
  | _, _ => false

/-- IEEE-754 addition (exact on the finite values computed here). -/
def add : F64 → F64 → F64
  | nan, _ => nan
  | _, nan => nan
  | fin a, fin b => fin (a + b)
  | inf, neginf => nan
  | neginf, inf => nan
  | inf, _ => inf
  | _, inf => inf
  | neginf, _ => neginf
  | _, neginf => neginf

/-- IEEE-754 subtraction (exact on the finite values computed here). -/
def sub : F64 → F64 → F64
  | nan, _ => nan
  | _, nan => nan
  | fin a, fin b => fin (a - b)
  | inf, inf => nan
  | neginf, neginf => nan
  | inf, _ => inf
  | _, inf => neginf
  | neginf, _ => neginf
  | _, neginf => inf

/-- IEEE-754 multiplication (exact on the finite values computed here). -/
def mul : F64 → F64 → F64
  | nan, _ => nan
  | _, nan => nan
  | fin a, fin b => fin (a * b)
  | inf, inf => inf
  | neginf, neginf => inf
  | inf, neginf => neginf
  | neginf, inf => neginf
  | inf, fin b => if b = 0 then nan else if 0 < b then inf else neginf
  | fin a, inf => if a = 0 then nan else if 0 < a then inf else neginf
  | neginf, fin b => if b = 0 then nan else if 0 < b then neginf else inf
  | fin a, neginf => if a = 0 then nan else if 0 < a then neginf else inf

/-- IEEE-754 division: `0/0` is NaN, `x/0` is a signed infinity, no
trap. Exact on the finite quotients computed here. -/
def div : F64 → F64 → F64
  | nan, _ => nan
  | _, nan => nan
  | fin a, fin b =>
      if b = 0 then (if a = 0 then nan else if 0 < a then inf else neginf)
      else fin (a / b)
  | inf, inf => nan
  | inf, neginf => nan
  | neginf, inf => nan
  | neginf, neginf => nan
  | inf, fin b => if 0 ≤ b then inf else neginf
  | neginf, fin b => if 0 ≤ b then neginf else inf
  | fin _, inf => fin 0
  | fin _, neginf => fin 0

/-- IEEE-754 negation. -/
def neg : F64 → F64
  | nan => nan
  | inf => neginf
  | neginf => inf
  | fin a => fin (-a)

/-- IEEE-754 `<`: false whenever either operand is NaN. -/
def ltb : F64 → F64 → Bool
  | fin a, fin b => decide (a < b)
  | neginf, fin _ => true
  | neginf, inf => true
  | fin _, inf => true
  | _, _ => false

/-- IEEE-754 `>`: `a > b` iff `b < a`. -/
def gtb (a b : F64) : Bool := ltb b a

end F64

/-! ## `value.rs`: `Object` and `Value` -/

/-- `value.rs` `enum Object`. -/
inductive Object where
  | String (s : String)
  deriving DecidableEq, Repr

/-- `value.rs` `enum Value`. -/
inductive Value where
  | Number (n : F64)
  | Boolean (b : Bool)
  | Nil
  | Obj (o : Object)
  deriving DecidableEq, Repr

namespace Value

/-- `Value::is_falsey`. -/
def is_falsey : Value → Bool
  | Boolean false => true
  | Nil => true
  | _ => false

/-- `impl PartialEq for Value` (`value.rs` lines 201-236): per-variant
structural comparison; numbers compare with `f64` `==`. -/
def beq : Value → Value → Bool
  | Number l, Number r => F64.beq l r
  | Number _, _ => false
  | Boolean l, Boolean r => decide (l = r)
  | Boolean _, _ => false
  | Obj (Object.String l), Obj (Object.String r) => decide (l = r)
  | Obj _, _ => false
  | Nil, Nil => true
  | Nil, _ => false

/-- `Value::type_string` (note: `Nil` renders as `"Unit"`). -/
def type_string : Value → String
  | Number _ => "Number"
  | Boolean _ => "Boolean"
  | Obj (Object.String _) => "String"
  | Nil => "Unit"

/-- `Value::as_number` as used through `binary_op!`: the `bail!` message
is modelled by its static text (the Rust code formats the offending
value into the message as well). -/
def as_number : Value → Except String F64
  | Number n => Except.ok n
  | v => Except.error ("Expected Number, got: " ++ v.type_string)

/-- `Value::as_string`. -/
def as_string : Value → Except String String
  | Obj (Object.String s) => Except.ok s
  | v => Except.error ("Expected String, got: " ++ v.type_string)

/-- Display of a finite double. Rust prints the shortest decimal
round-trip (`n.to_string()`); the model is exact for integral values
(the only ones displayed in the theorems below) and renders other
rationals as a fraction. -/
def numDisplay : F64 → String
  | F64.nan => "NaN"
  | F64.inf => "inf"
  | F64.neginf => "-inf"
  | F64.fin q => if q.den = 1 then toString q.num else toString q.num ++ "/" ++ toString q.den

/-- `impl fmt::Display for Value`. -/
def display : Value → String
  | Number n => numDisplay n
  | Boolean b => if b then "true" else "false"
  | Obj (Object.String s) => s
  | Nil => "nil"

end Value

/-! ## `sys.rs` character classes -/

/-- `sys.rs` `is_digit`. -/
def is_digit (c : Char) : Bool := decide ('0' ≤ c) && decide (c ≤ '9')

/-- `sys.rs` `is_alpha`. -/
def is_alpha (c : Char) : Bool :=
  (decide ('a' ≤ c) && decide (c ≤ 'z')) || (decide ('A' ≤ c) && decide (c ≤ 'Z')) || decide (c = '_')

/-- `sys.rs` `is_alpha_numeric`. -/
def is_alpha_numeric (c : Char) : Bool := is_alpha c || is_digit c

/-- Rust `char::is_whitespace` restricted to ASCII (all sources analysed
here are ASCII). -/
def rustIsWhitespace (c : Char) : Bool :=
  decide (c = ' ') || decide (c = '\t') || decide (c = '\n') || decide (c = '\x0d') ||
  decide (c = '\x0b') || decide (c = '\x0c')

/-- Rust `str::trim` on the underlying characters. -/
def strTrim (s : String) : List Char :=
  ((s.data.dropWhile rustIsWhitespace).reverse.dropWhile rustIsWhitespace).reverse

/-- The slice `source[a..b]` as a string. -/
def sliceStr (src : List Char) (a b : Nat) : String :=
  String.mk ((src.drop a).take (b - a))

/-- Digits to a natural number. -/
def digitsToNat (cs : List Char) : Nat :=
  cs.foldl (fun acc c => acc * 10 + (c.toNat - '0'.toNat)) 0

/-- Rust `str::parse::<f64>` restricted to the slices `select_number`
can produce (digits with an optional fractional part). Decimal-fraction
literals are modelled exactly; binary64 rounding of literals is not
modelled (the verified programs only use small integers). -/
def parseF64 (cs : List Char) : Option F64 :=
  let intPart := cs.takeWhile is_digit
  let rest := cs.dropWhile is_digit
  if intPart = [] then none
  else
    match rest with
    | [] => some (F64.fin (digitsToNat intPart : ℚ))
    | '.' :: frac =>
        if frac ≠ [] ∧ frac.all is_digit then
          some (F64.fin (mkRat (digitsToNat intPart * 10 ^ frac.length + digitsToNat frac)
            (10 ^ frac.length)))
        else none
    | _ => none

namespace Lex

/-! ## `lex.rs`: token types, tokens and the scanner -/

/-- `lex.rs` `enum TokenType`. Note: it has no `Print` variant (unlike
`value.rs`'s `TokenType`, which the compiler uses) and it has a `Unit`
variant the scanner never produces. -/
inductive TokenType where
  | FatArrow | LeftBrace | RightBrace | LeftParen | RightParen
  | Comma | Dot | Minus | Plus | Semicolon
  | ForwardSlash | Star | Bang | Equal | BangEqual | EqualEqual
  | Gt | Ge | Lt | Le
  | Ident | String | Number
  | And | Struct | Trait | Impl | Else | False | True | Fn | If
  | Unit | Nil | Or | Return | Super | ThisSelf | Let | Const
  | Eof | Loop | For | While | Break | Switch | Continue
  | Comment | Unknown | Colon | DoubleColon
  deriving DecidableEq, Repr

/-- `lex.rs` `val::ObjectVal`. -/
inductive ObjectVal where
  | Number (n : F64)
  | String (s : String)
  | Boolean (b : Bool)
  | Nil
  deriving DecidableEq, Repr

/-- `lex.rs` `struct Token`. -/
structure Token where
  ty : TokenType
  literal : ObjectVal
  line : Nat
  lexeme : String
  deriving DecidableEq, Repr

/-- `lex.rs` `struct LexResult`. -/
structure LexResult where
  tokens : List Token
  errors : List String
  deriving DecidableEq, Repr

/-- `lex.rs` `KEYWORDS` (a `phf_map`): note the absence of `print`. -/
def KEYWORDS : String → Option TokenType
  | "struct" => some TokenType.Struct
  | "trait" => some TokenType.Trait
  | "impl" => some TokenType.Impl
  | "if" => some TokenType.If
  | "else" => some TokenType.Else
  | "true" => some TokenType.True
  | "false" => some TokenType.False
  | "fn" => some TokenType.Fn
  | "nil" => some TokenType.Nil
  | "and" => some TokenType.And
  | "or" => some TokenType.Or
  | "return" => some TokenType.Return
  | "super" => some TokenType.Super
  | "self" => some TokenType.ThisSelf
  | "let" => some TokenType.Let
  | "const" => some TokenType.Const
  | "loop" => some TokenType.Loop
  | "for" => some TokenType.For
  | "while" => some TokenType.While
  | "break" => some TokenType.Break
  | "switch" => some TokenType.Switch
  | "continue" => some TokenType.Continue
  | _ => none

/-- `lex.rs` `struct Cursor`. -/
structure Cursor where
  start : Nat
  i : Nat
  lineno : Nat
  deriving DecidableEq, Repr

/-- `Cursor::new`. -/
def Cursor.new : Cursor := { start := 0, i := 0, lineno := 1 }

/-- `Cursor::to_token` (for a `String` token the quotes are snipped from
the lexeme). -/
def Cursor.to_token (cur : Cursor) (src : List Char) (ty : TokenType)
    (literal : Option ObjectVal) : Token :=
  { ty := ty
    literal := literal.getD ObjectVal.Nil
    line := cur.lineno
    lexeme :=
      match ty with
      | TokenType.String => sliceStr src (cur.start + 1) (cur.i - 1)
      | _ => sliceStr src cur.start cur.i }

/-- `lex.rs` `struct Lexer` (`source` and `source_str` are the same
character data for the ASCII sources considered here). -/
structure Lexer where
  src : List Char
  cursor : Cursor
  tokens : List Token
  errors : List String
  deriving Repr

namespace Lexer

/-- `Lexer::is_cursor_at_end`. -/
def is_cursor_at_end (lx : Lexer) : Bool := decide (lx.src.length ≤ lx.cursor.i)

/-- `Lexer::peek` reads `source[cursor.i]` with no bounds check: `none`
here is the out-of-bounds panic. -/
def peek? (lx : Lexer) : Option Char := lx.src.get? lx.cursor.i

/-- `Lexer::advance_cursor`. -/
def adv (lx : Lexer) (n : Nat) : Lexer :=
  { lx with cursor := { lx.cursor with i := lx.cursor.i + n } }

/-- `Lexer::match_next` (checks `is_cursor_at_end` first, so it cannot
read out of bounds). -/
def match_next (lx : Lexer) (c : Char) : Bool × Lexer :=
  if lx.is_cursor_at_end then (false, lx)
  else
    match lx.peek? with
    | some ch => if ch ≠ c then (false, lx) else (true, lx.adv 1)
    | none => (false, lx)

/-- The whitespace-skipping loop of `Lexer::next_token`; fuel is chosen
by the caller to exceed the remaining input, so the fuel-exhausted case
(which coincides with the end-of-input result) is unreachable. -/
def nextTokenLoop : Nat → Lexer → Char × Lexer
  | 0, lx => ('\x00', lx)
  | fuel + 1, lx =>
    if lx.is_cursor_at_end then ('\x00', lx)
    else
      match lx.peek? with
      | none => ('\x00', lx)
      | some c =>
        if rustIsWhitespace c then
          let lx := if c = '\n'
            then { lx with cursor := { lx.cursor with lineno := lx.cursor.lineno + 1 } }
            else lx
          nextTokenLoop fuel (lx.adv 1)
        else
          let lx := { lx with cursor := { lx.cursor with start := lx.cursor.i } }
          (c, lx.adv 1)

/-- `Lexer::next_token`: skip whitespace, pin `start`, return the next
character (`'\0'` at end of input). -/
def next_token (lx : Lexer) : Char × Lexer :=
  nextTokenLoop (lx.src.length + 1) lx

/-- The digit-consuming loop of `select_number`: `peek` panics when the
cursor has reached the end of the buffer. -/
def digitsLoop : Nat → Lexer → Except String Lexer
  | 0, lx => Except.ok lx
  | fuel + 1, lx =>
    match lx.peek? with
    | none => Except.error "index out of bounds: Lexer::peek"
    | some c => if is_digit c then digitsLoop fuel (lx.adv 1) else Except.ok lx

/-- `Lexer::select_number`. A trailing digit at end of input makes the
loop's `peek` read past the buffer: a panic. -/
def select_number (lx : Lexer) : Except String (Option ObjectVal × Lexer) := do
  let lx ← digitsLoop (lx.src.length + 1) lx
  let lx ←
    match lx.peek? with
    | none => Except.error "index out of bounds: Lexer::peek"
    | some c =>
      if c = '.' then
        -- `peekn(1)` asserts the index is in range.
        match lx.src.get? (lx.cursor.i + 1) with
        | none => Except.error "assertion failed: cursor index out of range of source string buffer"
        | some d =>
          if is_digit d then digitsLoop (lx.src.length + 1) (lx.adv 1)
          else Except.ok lx
      else Except.ok lx
  match parseF64 ((lx.src.drop lx.cursor.start).take (lx.cursor.i - lx.cursor.start)) with
  | some v => Except.ok (some (ObjectVal.Number v), lx)
  | none =>
      Except.ok (none,
        { lx with errors := lx.errors ++ [toString lx.cursor.lineno ++ " :: Error parsing number"] })

/-- The identifier-consuming loop of `select_ident`: `peek` panics at
end of buffer, as in `digitsLoop`. -/
def identLoop : Nat → Lexer → Except String Lexer
  | 0, lx => Except.ok lx
  | fuel + 1, lx =>
    match lx.peek? with
    | none => Except.error "index out of bounds: Lexer::peek"
    | some c => if is_alpha_numeric c then identLoop fuel (lx.adv 1) else Except.ok lx

/-- `Lexer::select_ident`: consume the identifier, then look it up in
`KEYWORDS`; a miss yields `Ident`. -/
def select_ident (lx : Lexer) : Except String (TokenType × Lexer) := do
  let lx ← identLoop (lx.src.length + 1) lx
  let value := sliceStr lx.src lx.cursor.start lx.cursor.i
  match KEYWORDS value with
  | some ty => Except.ok (ty, lx)
  | none => Except.ok (TokenType.Ident, lx)

/-- The body-consuming loop of `select_string` (checks `at_end` before
peeking, so it is total). -/
def stringLoop : Nat → Lexer → Lexer
  | 0, lx => lx
  | fuel + 1, lx =>
    if lx.is_cursor_at_end then lx
    else
      match lx.peek? with
      | none => lx
      | some c =>
        if c ≠ '"' then
          let lx := if c = '\n'
            then { lx with cursor := { lx.cursor with lineno := lx.cursor.lineno + 1 } }
            else lx
          stringLoop fuel (lx.adv 1)
        else lx

/-- `Lexer::select_string`. -/
def select_string (lx : Lexer) : Option ObjectVal × Lexer :=
  let lx := stringLoop (lx.src.length + 1) lx
  if lx.is_cursor_at_end then
    (none, { lx with errors := lx.errors ++ [toString lx.cursor.lineno ++ " :: Unterminated string"] })
  else
    let lx := lx.adv 1
    (some (ObjectVal.String (sliceStr lx.src (lx.cursor.start + 1) (lx.cursor.i - 1))), lx)

/-- The `//`-comment loop in `scan_tokens` (checks `at_end` first). -/
def commentLoop : Nat → Lexer → Lexer
  | 0, lx => lx
  | fuel + 1, lx =>
    if lx.is_cursor_at_end then lx
    else
      match lx.peek? with
      | none => lx
      | some c => if c ≠ '\n' then commentLoop fuel (lx.adv 1) else lx

/-- One arm of the big `match` in `scan_tokens`: classify the character
`c` just consumed, producing the token type and literal (and possibly
panicking, like `select_number` / `select_ident`). -/
def classify (c : Char) (lx : Lexer) :
    Except String (TokenType × Option ObjectVal × Lexer) :=
  match c with
  | '{' => Except.ok (TokenType.LeftBrace, none, lx)
  | '}' => Except.ok (TokenType.RightBrace, none, lx)
  | '(' => Except.ok (TokenType.LeftParen, none, lx)
  | ')' => Except.ok (TokenType.RightParen, none, lx)
  | ',' => Except.ok (TokenType.Comma, none, lx)
  | '.' => Except.ok (TokenType.Dot, none, lx)
  | '-' => Except.ok (TokenType.Minus, none, lx)
  | '+' => Except.ok (TokenType.Plus, none, lx)
  | ';' => Except.ok (TokenType.Semicolon, none, lx)
  | ':' =>
    let (m, lx) := lx.match_next ':'
    Except.ok (if m then TokenType.DoubleColon else TokenType.Colon, none, lx)
  | '*' => Except.ok (TokenType.Star, none, lx)
  | '!' =>
    let (m, lx) := lx.match_next '='
    Except.ok (if m then TokenType.BangEqual else TokenType.Bang, none, lx)
  | '=' =>
    let (m, lx) := lx.match_next '='
    if m then Except.ok (TokenType.EqualEqual, none, lx)
    else
      let (m2, lx) := lx.match_next '>'
      Except.ok (if m2 then TokenType.FatArrow else TokenType.Equal, none, lx)
  | '<' =>
    let (m, lx) := lx.match_next '='
    Except.ok (if m then TokenType.Le else TokenType.Lt, none, lx)
  | '>' =>
    let (m, lx) := lx.match_next '='
    Except.ok (if m then TokenType.Ge else TokenType.Gt, none, lx)
  | '/' =>
    let (m, lx) := lx.match_next '/'
    if m then Except.ok (TokenType.Comment, none, commentLoop (lx.src.length + 1) lx)
    else Except.ok (TokenType.ForwardSlash, none, lx)
  | '"' =>
    let (lit, lx) := lx.select_string
    Except.ok (TokenType.String, lit, lx)
  | _ =>
    if is_digit c then do
      let (lit, lx) ← lx.select_number
      Except.ok (TokenType.Number, lit, lx)
    else if is_alpha c then do
      let (ty, lx) ← lx.select_ident
      Except.ok (ty, none, lx)
    else
      Except.ok (TokenType.Unknown, none,
        { lx with errors := lx.errors ++
            [toString lx.cursor.lineno ++ " :: Unexpected Character - " ++ String.mk [c]] })

/-- The main loop of `Lexer::scan_tokens`. No `Eof` token is ever
appended: when the cursor reaches the end the accumulated tokens are
returned as they stand. -/
def scanLoop : Nat → Lexer → Except String LexResult
  | 0, lx => Except.ok { tokens := lx.tokens, errors := lx.errors }
  | fuel + 1, lx =>
    if lx.is_cursor_at_end then Except.ok { tokens := lx.tokens, errors := lx.errors }
    else
      match lx.next_token with
      | (c, lx) =>
        match classify c lx with
        | Except.error m => Except.error m
        | Except.ok (ty, lit, lx) =>
          let tok := lx.cursor.to_token lx.src ty lit
          scanLoop fuel { lx with tokens := lx.tokens ++ [tok] }

/-- `Lexer::scan_tokens`: an `Except.error` is a Rust panic escaping the
scan. -/
def scan_tokens (source : String) : Except String LexResult :=
  scanLoop (source.data.length + 2)
    { src := source.data, cursor := Cursor.new, tokens := [], errors := [] }

end Lexer

end Lex

/-! ## `value.rs`: the compiler's token types -/

/-- `value.rs` `enum TokenType` — the type `compiler.rs` imports. Unlike
`lex.rs`'s `TokenType` it has a `Print` variant and no `Unit` variant. -/
inductive TokenType where
  | Print | FatArrow | LeftBrace | RightBrace | LeftParen | RightParen
  | Comma | Dot | Minus | Plus | Semicolon
  | ForwardSlash | Star | Bang | Equal | BangEqual | EqualEqual
  | Gt | Ge | Lt | Le
  | Ident | String | Number
  | And | Struct | Trait | Impl | Else | False | True | Fn | If
  | Nil | Or | Return | Super | ThisSelf | Let | Const
  | Eof | Loop | For | While | Break | Switch | Continue
  | Comment | Unknown | Colon | DoubleColon
  deriving DecidableEq, Repr

/-- `value.rs` `struct Token`. -/
structure Token where
  ty : TokenType
  literal : Value
  line : Nat
  lexeme : String
  deriving DecidableEq, Repr

/-- Modelled from the spec: the data flow `source text → Lexer → [Token]
→ Compiler` (spec §2). `Compiler::compile_source` passes the lexer's
`lex::Token` stream directly to `Compiler::compile`, which expects
`value::Token`; the two are distinct Rust types with identically named
constructors, so the call in `compiler.rs` line 627 does not type-check
as written. The bridge maps each `lex.rs` token-type constructor to the
`value.rs` constructor of the same name (`Unit`, which the scanner never
emits and which `value.rs` lacks, falls to `Unknown`). -/
def Lex.TokenType.toValue : Lex.TokenType → Corrosion.TokenType
  | .FatArrow => .FatArrow
  | .LeftBrace => .LeftBrace
  | .RightBrace => .RightBrace
  | .LeftParen => .LeftParen
  | .RightParen => .RightParen
  | .Comma => .Comma
  | .Dot => .Dot
  | .Minus => .Minus
  | .Plus => .Plus
  | .Semicolon => .Semicolon
  | .ForwardSlash => .ForwardSlash
  | .Star => .Star
  | .Bang => .Bang
  | .Equal => .Equal
  | .BangEqual => .BangEqual
  | .EqualEqual => .EqualEqual
  | .Gt => .Gt
  | .Ge => .Ge
  | .Lt => .Lt
  | .Le => .Le
  | .Ident => .Ident
  | .String => .String
  | .Number => .Number
  | .And => .And
  | .Struct => .Struct
  | .Trait => .Trait
  | .Impl => .Impl
  | .Else => .Else
  | .False => .False
  | .True => .True
  | .Fn => .Fn
  | .If => .If
  | .Unit => .Unknown
  | .Nil => .Nil
  | .Or => .Or
  | .Return => .Return
  | .Super => .Super
  | .ThisSelf => .ThisSelf
  | .Let => .Let
  | .Const => .Const
  | .Eof => .Eof
  | .Loop => .Loop
  | .For => .For
  | .While => .While
  | .Break => .Break
  | .Switch => .Switch
  | .Continue => .Continue
  | .Comment => .Comment
  | .Unknown => .Unknown
  | .Colon => .Colon
  | .DoubleColon => .DoubleColon

/-- Modelled from the spec (see `Lex.TokenType.toValue`): the literal
payload of a lexer token as a `value.rs` `Value` — same-named variants,
with `String` wrapped in `Obj` as `value.rs` stores it. -/
def Lex.ObjectVal.toValue : Lex.ObjectVal → Corrosion.Value
  | .Number n => Value.Number n
  | .String s => Value.Obj (Object.String s)
  | .Boolean b => Value.Boolean b
  | .Nil => Value.Nil

/-- Modelled from the spec (see `Lex.TokenType.toValue`): a lexer token
as the compiler's token type. -/
def Lex.Token.toValue (t : Lex.Token) : Corrosion.Token :=
  { ty := t.ty.toValue, literal := t.literal.toValue, line := t.line, lexeme := t.lexeme }

/-! ## `vm.rs`: opcodes -/

/-- `vm.rs` `enum OpcodeType`. -/
inductive OpcodeType where
  | Return | Constant | Negate | Add | Subtract | Mult | Div
  | Nil | True | False | Not | Equal | GreaterThan | LessThan
  | Print | Pop | DefineGlobal | GetGlobal | SetGlobal | GetLocal | SetLocal
  | Unknown
  deriving DecidableEq, Repr

/-- The C-like discriminants (`Return(0) … SetLocal(20)`, `Unknown(21)`). -/
def OpcodeType.toNat : OpcodeType → Nat
  | .Return => 0 | .Constant => 1 | .Negate => 2 | .Add => 3 | .Subtract => 4
  | .Mult => 5 | .Div => 6 | .Nil => 7 | .True => 8 | .False => 9
  | .Not => 10 | .Equal => 11 | .GreaterThan => 12 | .LessThan => 13
  | .Print => 14 | .Pop => 15 | .DefineGlobal => 16 | .GetGlobal => 17
  | .SetGlobal => 18 | .GetLocal => 19 | .SetLocal => 20 | .Unknown => 21

/-- `vm.rs` `struct Opcode(pub usize)`: one instruction word, either an
opcode tag or an operand. -/
structure Opcode where
  val : Nat
  deriving DecidableEq, Repr

/-- `Opcode::ty`. -/
def Opcode.ty (op : Opcode) : OpcodeType :=
  match op.val with
  | 0 => .Return | 1 => .Constant | 2 => .Negate | 3 => .Add | 4 => .Subtract
  | 5 => .Mult | 6 => .Div | 7 => .Nil | 8 => .True | 9 => .False
  | 10 => .Not | 11 => .Equal | 12 => .GreaterThan | 13 => .LessThan
  | 14 => .Print | 15 => .Pop | 16 => .DefineGlobal | 17 => .GetGlobal
  | 18 => .SetGlobal | 19 => .GetLocal | 20 => .SetLocal
  | _ => .Unknown

/-- `impl From<OpcodeType> for Opcode`. -/
def Opcode.ofType (t : OpcodeType) : Opcode := ⟨t.toNat⟩

/-! ## `compiler.rs`: `Chunk` -/

/-- `compiler.rs` `struct Chunk`. -/
structure Chunk where
  instructions : List Opcode
  constants : List Value
  lines : List Nat
  deriving DecidableEq, Repr

namespace Chunk

/-- `Chunk::new`. -/
def new : Chunk := { instructions := [], constants := [], lines := [] }

/-- `Chunk::instructions_len`. -/
def instructions_len (c : Chunk) : Nat := c.instructions.length

/-- `Chunk::constant_at` indexes without a bounds check (`none` is the
out-of-bounds panic). -/
def constant_at? (c : Chunk) (index : Nat) : Option Value := c.constants.get? index

/-- `Chunk::opcode_at`, likewise unchecked. -/
def opcode_at? (c : Chunk) (index : Nat) : Option Opcode := c.instructions.get? index

/-- `Chunk::add_opcode`. -/
def add_opcode (c : Chunk) (code : Opcode) : Chunk :=
  { c with instructions := c.instructions ++ [code] }

/-- `Chunk::add_opcodes`. -/
def add_opcodes (c : Chunk) (a b : Opcode) : Chunk :=
  { c with instructions := c.instructions ++ [a, b] }

/-- `Chunk::push_constant`: append, return the new index. -/
def push_constant (c : Chunk) (v : Value) : Nat × Chunk :=
  (c.constants.length, { c with constants := c.constants ++ [v] })

/-- `Chunk::add_constant`: push the constant and emit
`Constant <index>`. -/
def add_constant (c : Chunk) (v : Value) : Nat × Chunk :=
  let (cindex, c) := c.push_constant v
  (cindex, (c.add_opcode (Opcode.ofType .Constant)).add_opcode ⟨cindex⟩)

/-- `Chunk::add_constant_ident`: intern the identifier's lexeme as a
string constant (no opcode emitted). -/
def add_constant_ident (c : Chunk) (token : Token) : Nat × Chunk :=
  c.push_constant (Value.Obj (Object.String token.lexeme))

end Chunk

/-! ## `compiler.rs`: precedence and the parse-rule table -/

/-- `compiler.rs` `enum Precedence`. -/
inductive Precedence where
  | None | Assignment | Or | And | Equality | Comparison
  | Term | Factor | Unary | Call | Primary | PrecedenceCount
  deriving DecidableEq, Repr

namespace Precedence

/-- The derived discriminants, giving `PartialOrd`'s order. -/
def toNat : Precedence → Nat
  | .None => 0 | .Assignment => 1 | .Or => 2 | .And => 3 | .Equality => 4
  | .Comparison => 5 | .Term => 6 | .Factor => 7 | .Unary => 8 | .Call => 9
  | .Primary => 10 | .PrecedenceCount => 11

/-- `<=` from the derived `PartialOrd`. -/
def leb (a b : Precedence) : Bool := decide (a.toNat ≤ b.toNat)

/-- `Precedence::next`. -/
def next : Precedence → Precedence
  | .None => .Assignment
  | .Assignment => .Or
  | .Or => .And
  | .And => .Equality
  | .Equality => .Comparison
  | .Comparison => .Term
  | .Term => .Factor
  | .Factor => .Unary
  | .Unary => .Call
  | .Call => .Primary
  | .Primary => .PrecedenceCount
  | .PrecedenceCount => .None

end Precedence

/-- The parse functions installed in the rule table. Rust stores
function pointers (`ParseFn`); the model stores tags dispatched by
`runParseFn` below. -/
inductive ParseFnTag where
  | grouping | unary | binary | number | string | variable | literal
  deriving DecidableEq, Repr

/-- `compiler.rs` `struct ParseRule` (fields `prefix` / `infix` are
named `pfx` / `ifx` here). -/
structure ParseRule where
  pfx : Option ParseFnTag
  ifx : Option ParseFnTag
  prec : Precedence
  deriving DecidableEq, Repr

namespace ParseRule

/-- `ParseRule::with_prefix`. -/
def withPfx (f : ParseFnTag) (p : Option Precedence) : ParseRule :=
  { pfx := some f, ifx := none, prec := p.getD Precedence.None }

/-- `ParseRule::with_infix`. -/
def withIfx (f : ParseFnTag) (p : Option Precedence) : ParseRule :=
  { pfx := none, ifx := some f, prec := p.getD Precedence.None }

/-- `ParseRule::none`. -/
def noneRule : ParseRule := { pfx := none, ifx := none, prec := Precedence.None }

end ParseRule

/-- `compiler.rs` `get_parse_rule`: the static dispatch table keyed by
token kind. Note `Comment` (like `Print`) has no prefix or infix rule. -/
def get_parse_rule : TokenType → ParseRule
  | .Print => ParseRule.noneRule
  | .FatArrow => ParseRule.noneRule
  | .LeftBrace => ParseRule.noneRule
  | .RightBrace => ParseRule.noneRule
  | .LeftParen => ParseRule.withPfx .grouping none
  | .RightParen => ParseRule.noneRule
  | .Comma => ParseRule.noneRule
  | .Dot => ParseRule.noneRule
  | .Minus => { pfx := some .unary, ifx := some .binary, prec := Precedence.Term }
  | .Plus => ParseRule.withIfx .binary (some Precedence.Term)
  | .Semicolon => ParseRule.noneRule
  | .ForwardSlash => ParseRule.withIfx .binary (some Precedence.Factor)
  | .Star => ParseRule.withIfx .binary (some Precedence.Factor)
  | .Bang => ParseRule.withPfx .unary none
  | .Equal => ParseRule.noneRule
  | .BangEqual => ParseRule.withIfx .binary (some Precedence.Equality)
  | .EqualEqual => ParseRule.withIfx .binary (some Precedence.Equality)
  | .Gt => ParseRule.withIfx .binary (some Precedence.Comparison)
  | .Ge => ParseRule.withIfx .binary (some Precedence.Comparison)
  | .Lt => ParseRule.withIfx .binary (some Precedence.Comparison)
  | .Le => ParseRule.withIfx .binary (some Precedence.Comparison)
  | .Ident => ParseRule.withPfx .variable none
  | .String => ParseRule.withPfx .string none
  | .Number => ParseRule.withPfx .number none
  | .And => ParseRule.noneRule
  | .Struct => ParseRule.noneRule
  | .Trait => ParseRule.noneRule
  | .Impl => ParseRule.noneRule
  | .Else => ParseRule.noneRule
  | .False => ParseRule.withPfx .literal none
  | .True => ParseRule.withPfx .literal none
  | .Fn => ParseRule.noneRule
  | .If => ParseRule.noneRule
  | .Nil => ParseRule.withPfx .literal none
  | .Or => ParseRule.noneRule
  | .Return => ParseRule.noneRule
  | .Super => ParseRule.noneRule
  | .ThisSelf => ParseRule.noneRule
  | .Let => ParseRule.noneRule
  | .Const => ParseRule.noneRule
  | .Eof => ParseRule.noneRule
  | .Loop => ParseRule.noneRule
  | .For => ParseRule.noneRule
  | .While => ParseRule.noneRule
  | .Break => ParseRule.noneRule
  | .Switch => ParseRule.noneRule
  | .Continue => ParseRule.noneRule
  | .Comment => ParseRule.noneRule
  | .Unknown => ParseRule.noneRule
  | .Colon => ParseRule.noneRule
  | .DoubleColon => ParseRule.noneRule

/-! ## `compiler.rs`: parser state and effects -/

/-- `compiler.rs` `struct Local`. -/
structure Local where
  name : Token
  depth : Nat
  deriving DecidableEq, Repr

/-- `compiler.rs` `struct Compiler`. -/
structure Compiler where
  locals : List Local
  scope_depth : Nat
  deriving DecidableEq, Repr

/-- `Compiler::new`. -/
def Compiler.new : Compiler := { locals := [], scope_depth := 0 }

/-- The scan of `Compiler::resolve_local`: `k` counts down from
`locals.len()`; the first (highest-index) lexeme match wins. -/
def resolveLocalGo (locals : List Local) (lexeme : String) : Nat → Option Nat
  | 0 => none
  | k + 1 =>
    match locals.get? k with
    | some l => if lexeme = l.name.lexeme then some k else resolveLocalGo locals lexeme k
    | none => resolveLocalGo locals lexeme k

/-- `Compiler::resolve_local`: scan the locals stack from the top down
for the first lexeme match; the index is the stack slot. -/
def Compiler.resolve_local (c : Compiler) (name : Token) : Option Nat :=
  resolveLocalGo c.locals name.lexeme c.locals.length

/-- `Compiler::push_local`. -/
def Compiler.push_local (c : Compiler) (token : Token) : Compiler :=
  { c with locals := c.locals ++ [{ name := token, depth := c.scope_depth }] }

/-- `compiler.rs` `struct Parser`, plus `printed`: the lines
`Parser::declaration` writes to stdout with `println!` when it catches a
parse error. -/
structure Parser where
  tokens : List Token
  i : Nat
  bytecode : Chunk
  compiler : Compiler
  printed : List String
  deriving DecidableEq, Repr

/-- Outcome of one parser action: `ok` and (catchable) `err` keep the
mutated parser state, as in Rust, where `self` survives an `Err` return;
`panic` models a Rust panic aborting the process; `fuelOut` marks fuel
exhaustion (unreachable at the fuel used by `Compiler.compile`). -/
inductive PStep (α : Type) where
  | ok (a : α) (p : Parser)
  | err (msg : String) (p : Parser)
  | panic (msg : String)
  | fuelOut

/-- Parser actions: state-passing over `Parser` with the three abnormal
exits of `PStep`. -/
def PM (α : Type) : Type := Parser → PStep α

instance : Monad PM where
  pure a := fun p => PStep.ok a p
  bind x f := fun p =>
    match x p with
    | PStep.ok a p' => f a p'
    | PStep.err m p' => PStep.err m p'
    | PStep.panic m => PStep.panic m
    | PStep.fuelOut => PStep.fuelOut

/-- Read the whole parser state. -/
def getP : PM Parser := fun p => PStep.ok p p

/-- Replace the whole parser state. -/
def setP (p' : Parser) : PM Unit := fun _ => PStep.ok () p'

/-- Update the parser state. -/
def modifyP (f : Parser → Parser) : PM Unit := fun p => PStep.ok () (f p)

/-- A `bail!`: a catchable `anyhow` error. -/
def throwErrP {α : Type} (msg : String) : PM α := fun p => PStep.err msg p

/-- A Rust panic (unreachable arm, index out of bounds, …). -/
def panicP {α : Type} (msg : String) : PM α := fun _ => PStep.panic msg

/-- Run `x`; on a catchable error hand the message and the mutated state
to `h` (panics pass through) — the `match result` in
`Parser::declaration`. -/
def catchErrP {α : Type} (x : PM α) (h : String → PM α) : PM α := fun p =>
  match x p with
  | PStep.err m p' => h m p'
  | r => r

namespace Parser

/-- `Parser::advance`. -/
def advanceP (n : Nat) : PM Unit := modifyP fun p => { p with i := p.i + n }

/-- `Parser::current`: `self.tokens[self.i]`, panicking when `i` is past
the end (the token stream has no `Eof` terminator to stop at). -/
def currentT : PM Token := fun p =>
  match p.tokens.get? p.i with
  | some t => PStep.ok t p
  | none => PStep.panic "index out of bounds: Parser::current"

/-- `Parser::prev`: `self.tokens[self.i - 1]` (underflow or
out-of-bounds is a panic). -/
def prevT : PM Token := fun p =>
  if p.i = 0 then PStep.panic "usize underflow: Parser::prev"
  else
    match p.tokens.get? (p.i - 1) with
    | some t => PStep.ok t p
    | none => PStep.panic "index out of bounds: Parser::prev"

/-- `Parser::expect`: advance past the expected kind or `bail!`. (Rust
formats the offending token into the message; the model keeps the static
text.) -/
def expectP (ty : TokenType) (message : String) : PM Unit := do
  let t ← currentT
  if t.ty = ty then advanceP 1
  else throwErrP ("Compiler::Parser => " ++ message)

/-- Append an opcode to the chunk being built. -/
def emit (op : Opcode) : PM Unit :=
  modifyP fun p => { p with bytecode := p.bytecode.add_opcode op }

/-- Append two opcodes (`Chunk::add_opcodes`). -/
def emit2 (a b : Opcode) : PM Unit :=
  modifyP fun p => { p with bytecode := p.bytecode.add_opcodes a b }

/-- `Chunk::add_constant` on the parser's chunk. -/
def addConstantP (v : Value) : PM Nat := fun p =>
  let (idx, bc) := p.bytecode.add_constant v
  PStep.ok idx { p with bytecode := bc }

/-- `Chunk::add_constant_ident` on the parser's chunk. -/
def addConstantIdentP (t : Token) : PM Nat := fun p =>
  let (idx, bc) := p.bytecode.add_constant_ident t
  PStep.ok idx { p with bytecode := bc }

/-- Model of `println!` in `Parser::declaration`. -/
def pushPrinted (line : String) : PM Unit :=
  modifyP fun p => { p with printed := p.printed ++ [line] }

/-- `Parser::begin_scope`. -/
def begin_scope : PM Unit :=
  modifyP fun p => { p with compiler := { p.compiler with scope_depth := p.compiler.scope_depth + 1 } }

/-- The pop-locals loop of `Parser::end_scope`: pop every local deeper
than the new scope depth, emitting one `Pop` opcode each. -/
def endScopeLoop : Nat → PM Unit
  | 0 => fun _ => PStep.fuelOut
  | fuel + 1 => do
    let p ← getP
    if p.compiler.locals.length > 0 then
      match p.compiler.locals.getLast? with
      | some back =>
        if back.depth > p.compiler.scope_depth then do
          setP { p with compiler := { p.compiler with locals := p.compiler.locals.dropLast } }
          emit (Opcode.ofType .Pop)
          endScopeLoop fuel
        else pure ()
      | none => pure ()
    else pure ()

/-- `Parser::end_scope` (`scope_depth -= 1` underflows — panics — at
depth 0; it is only reached after `begin_scope`). -/
def end_scope : PM Unit := do
  let p ← getP
  if p.compiler.scope_depth = 0 then panicP "usize underflow: Parser::end_scope"
  else do
    setP { p with compiler := { p.compiler with scope_depth := p.compiler.scope_depth - 1 } }
    let q ← getP
    endScopeLoop (q.compiler.locals.length + 1)

/-- `Parser::synchronize`: skip tokens until just past a `;` or at a
statement-starting keyword; returns `Ok` at `Eof`. `current()` panics if
the cursor runs past a stream that has no `Eof` token. -/
def synchronizeP : Nat → PM Unit
  | 0 => fun _ => PStep.fuelOut
  | fuel + 1 => do
    let c ← currentT
    if c.ty = TokenType.Eof then pure ()
    else do
      let pv ← prevT
      if pv.ty = TokenType.Semicolon then pure ()
      else
        match c.ty with
        | .Struct | .Fn | .Let | .For | .If | .While | .Print | .Return => pure ()
        | _ => do
          advanceP 1
          synchronizeP fuel

/-- `Parser::declare_variable`: in a global scope do nothing; otherwise
push a `Local` for the just-consumed identifier. -/
def declare_variable : PM Unit := do
  let p ← getP
  if p.compiler.scope_depth = 0 then pure ()
  else do
    let name ← prevT
    modifyP fun q => { q with compiler := q.compiler.push_local name }

/-- `Parser::parse_variable`: expect the identifier; declare it; in a
local scope return 0 without interning, otherwise intern the lexeme as a
constant and return its index. -/
def parse_variable : PM Nat := do
  expectP TokenType.Ident "Expected name for let declaration"
  declare_variable
  let p ← getP
  if p.compiler.scope_depth > 0 then pure 0
  else do
    let pt ← prevT
    addConstantIdentP pt

/-- `Parser::define_variable`: locals stay on the stack (no opcode);
globals get `DefineGlobal <const index>`. -/
def define_variable (global_index : Nat) : PM Unit := do
  let p ← getP
  if p.compiler.scope_depth > 0 then pure ()
  else emit2 (Opcode.ofType .DefineGlobal) ⟨global_index⟩

/-- `Parser::literal` (prefix rule for `true` / `false` / `nil`). -/
def literalFn (_canAssign : Bool) : PM Unit := do
  let t ← prevT
  match t.ty with
  | TokenType.Nil => emit (Opcode.ofType .Nil)
  | TokenType.False => emit (Opcode.ofType .False)
  | TokenType.True => emit (Opcode.ofType .True)
  | _ => panicP "unreachable: Parser::literal"

/-- `Parser::number` (prefix rule for number literals). -/
def numberFn (_canAssign : Bool) : PM Unit := do
  let t ← prevT
  if t.ty = TokenType.Number then do
    let _ ← addConstantP t.literal
    pure ()
  else throwErrP "Expected number"

/-- `Parser::string` (prefix rule for string literals). -/
def stringFn (_canAssign : Bool) : PM Unit := do
  let t ← prevT
  let _ ← addConstantP t.literal
  pure ()

mutual

/-- `Parser::declaration`: dispatch to `let_declaration` or `statement`;
on a (catchable) error, print it and `synchronize` — the error is
swallowed, `declaration` returns `Ok`. -/
def declaration : Nat → PM Unit
  | 0 => fun _ => PStep.fuelOut
  | fuel + 1 =>
    catchErrP
      (do
        let c ← currentT
        if c.ty = TokenType.Let then do
          advanceP 1
          let_declaration fuel
        else statement fuel)
      (fun msg => do
        pushPrinted ("Compiler::Parser => [ERROR]: " ++ msg)
        synchronizeP (fuel + 1))

/-- `Parser::let_declaration`. -/
def let_declaration : Nat → PM Unit
  | 0 => fun _ => PStep.fuelOut
  | fuel + 1 => do
    let global ← parse_variable
    let c ← currentT
    if c.ty = TokenType.Equal then do
      advanceP 1
      expression fuel
    else emit (Opcode.ofType .Nil)
    expectP TokenType.Semicolon "let_declaration :: Expected ';' after let declaration"
    define_variable global

/-- `Parser::statement`. -/
def statement : Nat → PM Unit
  | 0 => fun _ => PStep.fuelOut
  | fuel + 1 => do
    let c ← currentT
    match c.ty with
    | TokenType.Print => do
      advanceP 1
      print_statement fuel
    | TokenType.LeftBrace => do
      advanceP 1
      begin_scope
      blockFn fuel
      end_scope
    | _ => expression_statement fuel

/-- `Parser::block`: declarations until `}` or `Eof`, then expect `}`. -/
def blockFn : Nat → PM Unit
  | 0 => fun _ => PStep.fuelOut
  | fuel + 1 => do
    let c ← currentT
    if c.ty ≠ TokenType.RightBrace ∧ c.ty ≠ TokenType.Eof then do
      declaration fuel
      blockFn fuel
    else expectP TokenType.RightBrace "Expected '\x7d' after block statement"

/-- `Parser::expression_statement`: expression, `;`, then `Pop`. -/
def expression_statement : Nat → PM Unit
  | 0 => fun _ => PStep.fuelOut
  | fuel + 1 => do
    expression fuel
    expectP TokenType.Semicolon "expression_statement :: Expected ';' at end of statement"
    emit (Opcode.ofType .Pop)

/-- `Parser::print_statement`: expression, `;`, then `Print`. -/
def print_statement : Nat → PM Unit
  | 0 => fun _ => PStep.fuelOut
  | fuel + 1 => do
    expression fuel
    expectP TokenType.Semicolon "print_statement :: Expected ';' at end of statement"
    emit (Opcode.ofType .Print)

/-- `Parser::expression`: parse at `Assignment` precedence. -/
def expression : Nat → PM Unit
  | 0 => fun _ => PStep.fuelOut
  | fuel + 1 => parse_precedence fuel Precedence.Assignment

/-- `Parser::parse_precedence`: advance; run the prefix rule of the
consumed token if any (a missing prefix rule is silently skipped — the
`bail!("Expected expression")` in the source is commented out); then the
infix loop. -/
def parse_precedence : Nat → Precedence → PM Unit
  | 0, _ => fun _ => PStep.fuelOut
  | fuel + 1, precedence => do
    advanceP 1
    let can_assign := Precedence.leb precedence Precedence.Assignment
    let pv ← prevT
    (match (get_parse_rule pv.ty).pfx with
     | some f => runParseFn fuel f can_assign
     | none => pure ())
    infixLoop fuel precedence can_assign

/-- The `while precedence <= rule(current).precedence` loop of
`parse_precedence` (a missing infix rule is silently skipped after the
advance). -/
def infixLoop : Nat → Precedence → Bool → PM Unit
  | 0, _, _ => fun _ => PStep.fuelOut
  | fuel + 1, precedence, can_assign => do
    let c ← currentT
    if Precedence.leb precedence (get_parse_rule c.ty).prec then do
      advanceP 1
      let pv ← prevT
      (match (get_parse_rule pv.ty).ifx with
       | some f => runParseFn fuel f can_assign
       | none => pure ())
      infixLoop fuel precedence can_assign
    else pure ()

/-- Dispatch of a stored `ParseFn` (Rust calls through a function
pointer). -/
def runParseFn : Nat → ParseFnTag → Bool → PM Unit
  | 0, _, _ => fun _ => PStep.fuelOut
  | fuel + 1, tag, can_assign =>
    match tag with
    | ParseFnTag.grouping => groupingFn fuel can_assign
    | ParseFnTag.unary => unaryFn fuel can_assign
    | ParseFnTag.binary => binaryFn fuel can_assign
    | ParseFnTag.number => numberFn can_assign
    | ParseFnTag.string => stringFn can_assign
    | ParseFnTag.variable => variableFn fuel can_assign
    | ParseFnTag.literal => literalFn can_assign

/-- `Parser::grouping`. -/
def groupingFn : Nat → Bool → PM Unit
  | 0, _ => fun _ => PStep.fuelOut
  | fuel + 1, _ => do
    expression fuel
    expectP TokenType.RightParen "Expected ')' at end of grouping"

/-- `Parser::unary`: note the operand is parsed with `expression()` (at
`Assignment` precedence), not at `Unary` precedence. -/
def unaryFn : Nat → Bool → PM Unit
  | 0, _ => fun _ => PStep.fuelOut
  | fuel + 1, _ => do
    let t ← prevT
    expression fuel
    match t.ty with
    | TokenType.Minus => emit (Opcode.ofType .Negate)
    | TokenType.Bang => emit (Opcode.ofType .Not)
    | _ => panicP "unreachable: Parser::unary"

/-- `Parser::binary`: parse the right operand one precedence level up
(left associativity), then emit the operator's opcode(s). -/
def binaryFn : Nat → Bool → PM Unit
  | 0, _ => fun _ => PStep.fuelOut
  | fuel + 1, _ => do
    let t ← prevT
    let rule := get_parse_rule t.ty
    parse_precedence fuel rule.prec.next
    match t.ty with
    | TokenType.Plus => emit (Opcode.ofType .Add)
    | TokenType.Minus => emit (Opcode.ofType .Subtract)
    | TokenType.Star => emit (Opcode.ofType .Mult)
    | TokenType.ForwardSlash => emit (Opcode.ofType .Div)
    | TokenType.BangEqual => emit2 (Opcode.ofType .Equal) (Opcode.ofType .Not)
    | TokenType.EqualEqual => emit (Opcode.ofType .Equal)
    | TokenType.Gt => emit (Opcode.ofType .GreaterThan)
    | TokenType.Ge => emit2 (Opcode.ofType .LessThan) (Opcode.ofType .Not)
    | TokenType.Lt => emit (Opcode.ofType .LessThan)
    | TokenType.Le => emit2 (Opcode.ofType .GreaterThan) (Opcode.ofType .Not)
    | _ => panicP "unreachable: Parser::binary"

/-- `Parser::variable` (prefix rule for identifiers). -/
def variableFn : Nat → Bool → PM Unit
  | 0, _ => fun _ => PStep.fuelOut
  | fuel + 1, can_assign => do
    let t ← prevT
    named_variable fuel t can_assign

/-- `Parser::named_variable`: resolve as a local (slot index) or intern
as a global (constant index); with `canAssign` and a `=` lookahead parse
the right-hand side and emit the Set opcode, else the Get opcode. -/
def named_variable : Nat → Token → Bool → PM Unit
  | 0, _, _ => fun _ => PStep.fuelOut
  | fuel + 1, name, can_assign => do
    let p ← getP
    let (getOp, setOp, arg) ←
      (match p.compiler.resolve_local name with
       | some i => pure (Opcode.ofType .GetLocal, Opcode.ofType .SetLocal, i)
       | none => do
         let idx ← addConstantIdentP name
         pure (Opcode.ofType .GetGlobal, Opcode.ofType .SetGlobal, idx))
    let c ← currentT
    if can_assign ∧ c.ty = TokenType.Equal then do
      advanceP 1
      expression fuel
      emit2 setOp ⟨arg⟩
    else emit2 getOp ⟨arg⟩

end

end Parser

/-- Fuel used by the entry points below; it vastly exceeds the recursion
depth of every program evaluated in this file, so `fuelOut` results are
unreachable there. -/
def execFuel : Nat := 256

/-- The `while p.current().ty != Eof` loop of `Compiler::compile`.
`current()` is called before every `declaration`, so a stream without an
`Eof` token panics here once the declarations have consumed it. (This is
the do-block `let c ← currentT; if c.ty = Eof then pure () else do
declaration fuel; compileLoop fuel` with the binds of `PM` written
out, which the step lemmas below rely on.) -/
def Parser.compileLoop : Nat → PM Unit
  | 0 => fun _ => PStep.fuelOut
  | fuel + 1 => fun p =>
    match Parser.currentT p with
    | PStep.ok c p1 =>
      if c.ty = TokenType.Eof then PStep.ok () p1
      else
        match Parser.declaration fuel p1 with
        | PStep.ok _ p2 => Parser.compileLoop fuel p2
        | PStep.err m p2 => PStep.err m p2
        | PStep.panic m => PStep.panic m
        | PStep.fuelOut => PStep.fuelOut
    | PStep.err m p1 => PStep.err m p1
    | PStep.panic m => PStep.panic m
    | PStep.fuelOut => PStep.fuelOut

/-- One non-`Eof` iteration of `compileLoop` whose declaration
succeeds. Evaluating a compilation through these step lemmas (with
explicit intermediate parser states) keeps each definitional-reduction
step small. -/
theorem Parser.compileLoop_ok_step (fuel : Nat) (p p2 : Parser) (t : Token)
    (hdecl : Parser.declaration fuel p = PStep.ok () p2)
    (hcur : Parser.currentT p = PStep.ok t p)
    (hne : ¬ t.ty = TokenType.Eof) :
    Parser.compileLoop (fuel + 1) p = Parser.compileLoop fuel p2 := by
  simp only [Parser.compileLoop]
  rw [hcur]
  simp only [hne, if_false, ite_false, hdecl]

/-- One non-`Eof` iteration of `compileLoop` whose declaration panics:
the panic aborts the compile. -/
theorem Parser.compileLoop_panic_step (fuel : Nat) (p : Parser) (t : Token) (m : String)
    (hdecl : Parser.declaration fuel p = PStep.panic m)
    (hcur : Parser.currentT p = PStep.ok t p)
    (hne : ¬ t.ty = TokenType.Eof) :
    Parser.compileLoop (fuel + 1) p = PStep.panic m := by
  simp only [Parser.compileLoop]
  rw [hcur]
  simp only [hne, if_false, ite_false, hdecl]

/-- `compileLoop` stops at an `Eof` lookahead. -/
theorem Parser.compileLoop_eof (fuel : Nat) (p : Parser) (t : Token)
    (hcur : Parser.currentT p = PStep.ok t p)
    (heof : t.ty = TokenType.Eof) :
    Parser.compileLoop (fuel + 1) p = PStep.ok () p := by
  simp only [Parser.compileLoop]
  rw [hcur]
  simp only [heof, if_true, ite_true]

/-- Result of `Compiler::compile`: on success, the chunk plus the lines
printed to stdout while compiling. `err` is unreachable (declarations
swallow their errors) but kept for the Rust signature's `Result`. -/
inductive CompileResult where
  | ok (chunk : Chunk) (printed : List String)
  | err (msg : String)
  | panic (msg : String)
  | fuelOut
  deriving DecidableEq, Repr

namespace CompileResult

/-- The chunk of a successful compile. -/
def chunk? : CompileResult → Option Chunk
  | ok c _ => some c
  | _ => none

/-- The stdout lines of a successful compile. -/
def printed? : CompileResult → Option (List String)
  | ok _ pr => some pr
  | _ => none

/-- Whether the result is a Rust panic. -/
def isPanic : CompileResult → Bool
  | panic _ => true
  | _ => false

end CompileResult

/-- `Compiler::compile`: parse declarations until `Eof`, then append
`Return`. -/
def Compiler.compile (tokens : List Token) : CompileResult :=
  match Parser.compileLoop execFuel
      { tokens := tokens, i := 0, bytecode := Chunk.new, compiler := Compiler.new, printed := [] } with
  | PStep.ok _ p => CompileResult.ok (p.bytecode.add_opcode (Opcode.ofType .Return)) p.printed
  | PStep.err m _ => CompileResult.err m
  | PStep.panic m => CompileResult.panic m
  | PStep.fuelOut => CompileResult.fuelOut

/-- Read off `Compiler.compile` from a stepwise evaluation of its loop
(success case). -/
theorem Compiler.compile_ok_of (tokens : List Token) (pf : Parser)
    (h : Parser.compileLoop execFuel
        { tokens := tokens, i := 0, bytecode := Chunk.new, compiler := Compiler.new,
          printed := [] } = PStep.ok () pf) :
    Compiler.compile tokens =
      CompileResult.ok (pf.bytecode.add_opcode (Opcode.ofType OpcodeType.Return)) pf.printed := by
  unfold Compiler.compile
  rw [h]

/-- Read off `Compiler.compile` from a stepwise evaluation of its loop
(panic case). -/
theorem Compiler.compile_panic_of (tokens : List Token) (m : String)
    (h : Parser.compileLoop execFuel
        { tokens := tokens, i := 0, bytecode := Chunk.new, compiler := Compiler.new,
          printed := [] } = PStep.panic m) :
    Compiler.compile tokens = CompileResult.panic m := by
  unfold Compiler.compile
  rw [h]

/-- Result of `Compiler::compile_source`. -/
inductive SourceCompileResult where
  | lexPanic (msg : String)
  | lexErrs (errs : List String)
  | err (msg : String)
  | panic (msg : String)
  | fuelOut
  | ok (chunk : Chunk) (printed : List String)
  deriving DecidableEq, Repr

/-- `Compiler::compile_source`: trim the source, scan it, refuse to
compile when the lexer reported errors (`bail!("LEX ERROR(S): …")`),
otherwise hand the token stream — unfiltered — to `Compiler::compile`
(via the spec-modelled token bridge `Lex.Token.toValue`, see there). -/
def Compiler.compile_source (source : String) : SourceCompileResult :=
  match Lex.Lexer.scan_tokens (String.mk (strTrim source)) with
  | Except.error m => SourceCompileResult.lexPanic m
  | Except.ok result =>
    if result.errors.length = 0 then
      match Compiler.compile (result.tokens.map Lex.Token.toValue) with
      | CompileResult.ok c pr => SourceCompileResult.ok c pr
      | CompileResult.err m => SourceCompileResult.err m
      | CompileResult.panic m => SourceCompileResult.panic m
      | CompileResult.fuelOut => SourceCompileResult.fuelOut
    else SourceCompileResult.lexErrs result.errors

/-- Read off `Compiler.compile_source` from the lexer's result and the
compiler's result on the bridged stream (compile-panic case). -/
theorem Compiler.compile_source_panic_of (source : String) (r : Lex.LexResult) (m : String)
    (hscan : Lex.Lexer.scan_tokens (String.mk (strTrim source)) = Except.ok r)
    (hnoerr : r.errors.length = 0)
    (hc : Compiler.compile (r.tokens.map Lex.Token.toValue) = CompileResult.panic m) :
    Compiler.compile_source source = SourceCompileResult.panic m := by
  unfold Compiler.compile_source
  rw [hscan]
  dsimp only
  rw [if_pos hnoerr, hc]

/-! ## `vm.rs`: the virtual machine -/

/-- Insert-or-overwrite into the globals map (`HashMap::insert`),
modelled as an association list. -/
def gInsert : List (String × Value) → String → Value → List (String × Value)
  | [], k, v => [(k, v)]
  | (k', v') :: rest, k, v =>
    if k' = k then (k, v) :: rest else (k', v') :: gInsert rest k v

/-- `HashMap::get` on the globals map. -/
def gGet : List (String × Value) → String → Option Value
  | [], _ => none
  | (k', v') :: rest, k => if k' = k then some v' else gGet rest k

/-- `HashMap::contains_key` on the globals map. -/
def gContains (g : List (String × Value)) (k : String) : Bool := (gGet g k).isSome

/-- `vm.rs` `struct VM`, plus `output`: the lines the `Print` opcode
writes to stdout. -/
structure VM where
  pc : Nat
  chunk : Chunk
  stack : List Value
  globals : List (String × Value)
  output : List String
  deriving DecidableEq, Repr

namespace VM

/-- `VM::new`. -/
def new : VM := { pc := 0, chunk := Chunk.new, stack := [], globals := [], output := [] }

/-- `VM::reset`: new chunk, `pc` and stack cleared, globals retained. -/
def reset (vm : VM) (chunk : Chunk) : VM :=
  { vm with pc := 0, chunk := chunk, stack := [] }

/-- `VM::push` (the stack grows at the end of the list; a value's index
is its slot). -/
def push (vm : VM) (v : Value) : VM := { vm with stack := vm.stack ++ [v] }

/-- `VM::pop`: `none` is the "Stack is empty, nothing to pop" `bail!`. -/
def pop? (vm : VM) : Option (Value × VM) :=
  match vm.stack.getLast? with
  | some v => some (v, { vm with stack := vm.stack.dropLast })
  | none => none

/-- `VM::next_op`: fetch `chunk.opcode_at(pc)` and advance `pc`; `none`
is the out-of-bounds indexing panic. -/
def next_op? (vm : VM) : Option (Opcode × VM) :=
  match vm.chunk.opcode_at? vm.pc with
  | some op => some (op, { vm with pc := vm.pc + 1 })
  | none => none

/-- Result of `VM::run`. `err` is an `anyhow` runtime error returned to
the caller; `panic` is a Rust panic (stack indexing, `expect`, constant
table indexing); `fuelOut` is unreachable at `execFuel` on the programs
run here. -/
inductive RunResult where
  | ok (vm : VM)
  | err (msg : String)
  | panic (msg : String)
  | fuelOut
  deriving DecidableEq, Repr

/-- The stdout lines of a completed run. -/
def RunResult.output? : RunResult → Option (List String)
  | RunResult.ok vm => some vm.output
  | _ => none

/-- The final operand stack of a completed run. -/
def RunResult.stack? : RunResult → Option (List Value)
  | RunResult.ok vm => some vm.stack
  | _ => none

/-- The final value of global `k` after a completed run. -/
def RunResult.global? (r : RunResult) (k : String) : Option Value :=
  match r with
  | RunResult.ok vm => gGet vm.globals k
  | _ => none

/-- Whether the run ended in a Rust panic. -/
def RunResult.isPanic : RunResult → Bool
  | RunResult.panic _ => true
  | _ => false

/-- The fetch-decode-execute loop of `VM::run` (`vm.rs` lines 88-219),
one constructor arm per opcode, faithful to each arm's pops, pushes,
`bail!`s and panics. -/
def run : Nat → VM → RunResult
  | 0, _ => RunResult.fuelOut
  | fuel + 1, vm =>
    if vm.pc < vm.chunk.instructions_len then
      match vm.next_op? with
      | none => RunResult.panic "index out of bounds: Chunk::opcode_at"
      | some (op, vm) =>
        match op.ty with
        | OpcodeType.Return => RunResult.ok vm
        | OpcodeType.Constant =>
          match vm.next_op? with
          | none => RunResult.panic "index out of bounds: Chunk::opcode_at"
          | some (cindex, vm) =>
            match vm.chunk.constant_at? cindex.val with
            | none => RunResult.panic "index out of bounds: Chunk::constant_at"
            | some c => run fuel (vm.push c)
        | OpcodeType.Negate =>
          match vm.stack.getLast? with
          | none => RunResult.panic "usize underflow: VM stack index"
          | some (Value.Number n) =>
            run fuel { vm with stack := vm.stack.dropLast ++ [Value.Number n.neg] }
          | some _ => RunResult.err "Cannot negate non-number at top of stack"
        | OpcodeType.Add =>
          match vm.pop? with
          | none => RunResult.err "Stack is empty, nothing to pop"
          | some (b, vm) =>
            match vm.pop? with
            | none => RunResult.err "Stack is empty, nothing to pop"
            | some (a, vm) =>
              match a, b with
              | Value.Number ln, Value.Number rn => run fuel (vm.push (Value.Number (ln.add rn)))
              | Value.Number _, _ => RunResult.err "Addition operands must be 2 numbers or 2 strings."
              | Value.Obj (Object.String lstr), Value.Obj (Object.String rstr) =>
                run fuel (vm.push (Value.Obj (Object.String (lstr ++ rstr))))
              | Value.Obj _, _ => RunResult.err "Addition operands must be 2 numbers or 2 strings."
              | _, _ => RunResult.err "Addition operands must be 2 numbers or 2 strings."
        | OpcodeType.Subtract =>
          match vm.pop? with
          | none => RunResult.err "Stack is empty, nothing to pop"
          | some (b, vm) =>
            match b.as_number with
            | Except.error m => RunResult.err m
            | Except.ok nb =>
              match vm.pop? with
              | none => RunResult.err "Stack is empty, nothing to pop"
              | some (a, vm) =>
                match a.as_number with
                | Except.error m => RunResult.err m
                | Except.ok na => run fuel (vm.push (Value.Number (na.sub nb)))
        | OpcodeType.Mult =>
          match vm.pop? with
          | none => RunResult.err "Stack is empty, nothing to pop"
          | some (b, vm) =>
            match b.as_number with
            | Except.error m => RunResult.err m
            | Except.ok nb =>
              match vm.pop? with
              | none => RunResult.err "Stack is empty, nothing to pop"
              | some (a, vm) =>
                match a.as_number with
                | Except.error m => RunResult.err m
                | Except.ok na => run fuel (vm.push (Value.Number (na.mul nb)))
        | OpcodeType.Div =>
          match vm.pop? with
          | none => RunResult.err "Stack is empty, nothing to pop"
          | some (b, vm) =>
            match b.as_number with
            | Except.error m => RunResult.err m
            | Except.ok nb =>
              match vm.pop? with
              | none => RunResult.err "Stack is empty, nothing to pop"
              | some (a, vm) =>
                match a.as_number with
                | Except.error m => RunResult.err m
                | Except.ok na => run fuel (vm.push (Value.Number (na.div nb)))
        | OpcodeType.Nil => run fuel (vm.push Value.Nil)
        | OpcodeType.False => run fuel (vm.push (Value.Boolean false))
        | OpcodeType.True => run fuel (vm.push (Value.Boolean true))
        | OpcodeType.Not =>
          match vm.stack.getLast? with
          | none => RunResult.panic "usize underflow: VM stack index"
          | some v =>
            run fuel { vm with stack := vm.stack.dropLast ++ [Value.Boolean v.is_falsey] }
        | OpcodeType.Equal =>
          match vm.pop? with
          | none => RunResult.err "Stack is empty, nothing to pop"
          | some (b, vm) =>
            match vm.pop? with
            | none => RunResult.err "Stack is empty, nothing to pop"
            | some (a, vm) => run fuel (vm.push (Value.Boolean (Value.beq a b)))
        | OpcodeType.GreaterThan =>
          match vm.pop? with
          | none => RunResult.err "Stack is empty, nothing to pop"
          | some (b, vm) =>
            match b.as_number with
            | Except.error m => RunResult.err m
            | Except.ok nb =>
              match vm.pop? with
              | none => RunResult.err "Stack is empty, nothing to pop"
              | some (a, vm) =>
                match a.as_number with
                | Except.error m => RunResult.err m
                | Except.ok na => run fuel (vm.push (Value.Boolean (na.gtb nb)))
        | OpcodeType.LessThan =>
          match vm.pop? with
          | none => RunResult.err "Stack is empty, nothing to pop"
          | some (b, vm) =>
            match b.as_number with
            | Except.error m => RunResult.err m
            | Except.ok nb =>
              match vm.pop? with
              | none => RunResult.err "Stack is empty, nothing to pop"
              | some (a, vm) =>
                match a.as_number with
                | Except.error m => RunResult.err m
                | Except.ok na => run fuel (vm.push (Value.Boolean (na.ltb nb)))
        | OpcodeType.Print =>
          match vm.pop? with
          | none => RunResult.err "Stack is empty, nothing to pop"
          | some (v, vm) => run fuel { vm with output := vm.output ++ [v.display] }
        | OpcodeType.Pop =>
          match vm.pop? with
          | none => RunResult.err "Stack is empty, nothing to pop"
          | some (_, vm) => run fuel vm
        | OpcodeType.DefineGlobal =>
          match vm.next_op? with
          | none => RunResult.panic "index out of bounds: Chunk::opcode_at"
          | some (gindex, vm) =>
            match vm.chunk.constant_at? gindex.val with
            | none => RunResult.panic "index out of bounds: Chunk::constant_at"
            | some c =>
              match c.as_string with
              | Except.error m => RunResult.err m
              | Except.ok name =>
                match vm.pop? with
                | none => RunResult.err "Stack is empty, nothing to pop"
                | some (value, vm) => run fuel { vm with globals := gInsert vm.globals name value }
        | OpcodeType.GetGlobal =>
          match vm.next_op? with
          | none => RunResult.panic "index out of bounds: Chunk::opcode_at"
          | some (gindex, vm) =>
            match vm.chunk.constant_at? gindex.val with
            | none => RunResult.panic "index out of bounds: Chunk::constant_at"
            | some c =>
              match c.as_string with
              | Except.error m => RunResult.err m
              | Except.ok name =>
                match gGet vm.globals name with
                | some v => run fuel (vm.push v)
                | none =>
                  RunResult.err
                    ("Compiler::Parser => Unable to get Undefined let binding: " ++ name)
        | OpcodeType.SetGlobal =>
          match vm.next_op? with
          | none => RunResult.panic "index out of bounds: Chunk::opcode_at"
          | some (gindex, vm) =>
            match vm.chunk.constant_at? gindex.val with
            | none => RunResult.panic "index out of bounds: Chunk::constant_at"
            | some c =>
              match c.as_string with
              | Except.error m => RunResult.err m
              | Except.ok name =>
                if gContains vm.globals name then
                  -- peek_stack(0): the value stays on the stack.
                  match vm.stack.getLast? with
                  | none => RunResult.panic "Stack peek failed, Stack is empty"
                  | some value => run fuel { vm with globals := gInsert vm.globals name value }
                else
                  RunResult.err
                    ("Compiler::Parser => Unable to assign to Undefined let binding: " ++ name)
        | OpcodeType.GetLocal =>
          match vm.next_op? with
          | none => RunResult.panic "index out of bounds: Chunk::opcode_at"
          | some (slot, vm) =>
            match vm.stack.get? slot.val with
            | none => RunResult.panic "index out of bounds: VM stack slot"
            | some v => run fuel (vm.push v)
        | OpcodeType.SetLocal =>
          match vm.next_op? with
          | none => RunResult.panic "index out of bounds: Chunk::opcode_at"
          | some (slot, vm) =>
            match vm.stack.getLast? with
            | none => RunResult.panic "Unable to get value at top of stack; stack is empty."
            | some top =>
              if slot.val < vm.stack.length then
                run fuel { vm with stack := vm.stack.set slot.val top }
              else RunResult.panic "index out of bounds: VM stack slot"
        | OpcodeType.Unknown => RunResult.err "Unknown opcode encountered"
    else RunResult.ok vm

/-- `VM::reset` then `VM::run` on a fresh VM — how a compiled chunk is
executed. -/
def runChunk (chunk : Chunk) : RunResult := run execFuel (VM.new.reset chunk)

end VM

/-! ## The full pipeline (`VM::interpret_source` on a fresh VM) -/

/-- Outcome of `lex → compile → run` on a source string, by failing
stage. -/
inductive RunOutcome where
  | lexPanic (msg : String)
  | lexErrsAbort (errs : List String)
  | compErr (msg : String)
  | compPanic (msg : String)
  | compFuel
  | rtErr (msg : String)
  | rtPanic (msg : String)
  | rtFuel
  | ok (output : List String)
  deriving DecidableEq, Repr

/-- `VM::interpret_source` on a fresh `VM::new`: compile the source and
run the chunk, classifying the outcome. -/
def runSource (source : String) : RunOutcome :=
  match Compiler.compile_source source with
  | SourceCompileResult.lexPanic m => RunOutcome.lexPanic m
  | SourceCompileResult.lexErrs es => RunOutcome.lexErrsAbort es
  | SourceCompileResult.err m => RunOutcome.compErr m
  | SourceCompileResult.panic m => RunOutcome.compPanic m
  | SourceCompileResult.fuelOut => RunOutcome.compFuel
  | SourceCompileResult.ok chunk _printed =>
    match VM.runChunk chunk with
    | VM.RunResult.ok vm => RunOutcome.ok vm.output
    | VM.RunResult.err m => RunOutcome.rtErr m
    | VM.RunResult.panic m => RunOutcome.rtPanic m
    | VM.RunResult.fuelOut => RunOutcome.rtFuel

/-- Read off `runSource` when compilation panics. -/
theorem runSource_compPanic_of (source : String) (m : String)
    (h : Compiler.compile_source source = SourceCompileResult.panic m) :
    runSource source = RunOutcome.compPanic m := by
  unfold runSource
  rw [h]

/-- Compile a token stream and, on success, run the chunk on a fresh VM. -/
def compileRunResult (tokens : List Token) : Option VM.RunResult :=
  (Compiler.compile tokens).chunk?.map VM.runChunk

/-- The stdout of compiling and running a token stream. -/
def compileRunOutput (tokens : List Token) : Option (List String) :=
  (compileRunResult tokens).bind VM.RunResult.output?

/-- The final value of global `k` after compiling and running a token
stream. -/
def compileRunGlobal (tokens : List Token) (k : String) : Option Value :=
  (compileRunResult tokens).bind (fun r => r.global? k)

/-! ## Concrete token streams, chunks and lexer outputs used by the
theorems -/

/-- A compiler token with no literal payload. -/
def tok (ty : TokenType) (lexeme : String) : Token :=
  { ty := ty, literal := Value.Nil, line := 1, lexeme := lexeme }

/-- A compiler number token. -/
def numTok (q : ℚ) (lexeme : String) : Token :=
  { ty := TokenType.Number, literal := Value.Number (F64.fin q), line := 1, lexeme := lexeme }

/-- A lexer token with no literal payload. -/
def ltok (ty : Lex.TokenType) (lexeme : String) : Lex.Token :=
  { ty := ty, literal := Lex.ObjectVal.Nil, line := 1, lexeme := lexeme }

/-- A lexer number token. -/
def lnum (q : ℚ) (lexeme : String) : Lex.Token :=
  { ty := Lex.TokenType.Number, literal := Lex.ObjectVal.Number (F64.fin q), line := 1,
    lexeme := lexeme }

/-- What the lexer actually produces for `print 1 + 2 * 3;` — `print`
comes out as an `Ident` and no `Eof` token is appended. -/
def lexPrint123 : Lex.LexResult :=
  { tokens := [ltok .Ident "print", lnum 1 "1", ltok .Plus "+", lnum 2 "2", ltok .Star "*",
               lnum 3 "3", ltok .Semicolon ";"],
    errors := [] }

/-- What the lexer actually produces for `let a = 1; a = a + 5; print a;`. -/
def lexAssign : Lex.LexResult :=
  { tokens := [ltok .Let "let", ltok .Ident "a", ltok .Equal "=", lnum 1 "1", ltok .Semicolon ";",
               ltok .Ident "a", ltok .Equal "=", ltok .Ident "a", ltok .Plus "+", lnum 5 "5",
               ltok .Semicolon ";", ltok .Ident "print", ltok .Ident "a", ltok .Semicolon ";"],
    errors := [] }

/-- What the lexer actually produces for
`let a = 1; { let a = 2; print a; } print a;`. -/
def lexShadow : Lex.LexResult :=
  { tokens := [ltok .Let "let", ltok .Ident "a", ltok .Equal "=", lnum 1 "1", ltok .Semicolon ";",
               ltok .LeftBrace "\x7b", ltok .Let "let", ltok .Ident "a", ltok .Equal "=",
               lnum 2 "2", ltok .Semicolon ";", ltok .Ident "print", ltok .Ident "a",
               ltok .Semicolon ";", ltok .RightBrace "\x7d", ltok .Ident "print",
               ltok .Ident "a", ltok .Semicolon ";"],
    errors := [] }

/-- The token stream the spec intends for `print 1 + 2 * 3;`: a `Print`
keyword token and a terminating `Eof` (which the actual lexer cannot
produce). -/
def progPrint123 : List Token :=
  [tok .Print "print", numTok 1 "1", tok .Plus "+", numTok 2 "2", tok .Star "*",
   numTok 3 "3", tok .Semicolon ";", tok .Eof ""]

/-- The intended token stream for `let a = 1; a = a + 5; print a;`. -/
def progAssign : List Token :=
  [tok .Let "let", tok .Ident "a", tok .Equal "=", numTok 1 "1", tok .Semicolon ";",
   tok .Ident "a", tok .Equal "=", tok .Ident "a", tok .Plus "+", numTok 5 "5",
   tok .Semicolon ";", tok .Print "print", tok .Ident "a", tok .Semicolon ";", tok .Eof ""]

/-- The intended token stream for
`let a = 1; { let a = 2; print a; } print a;`. -/
def progShadow : List Token :=
  [tok .Let "let", tok .Ident "a", tok .Equal "=", numTok 1 "1", tok .Semicolon ";",
   tok .LeftBrace "\x7b", tok .Let "let", tok .Ident "a", tok .Equal "=", numTok 2 "2",
   tok .Semicolon ";", tok .Print "print", tok .Ident "a", tok .Semicolon ";",
   tok .RightBrace "\x7d", tok .Print "print", tok .Ident "a", tok .Semicolon ";", tok .Eof ""]

/-- A declaration missing its terminating `;`: `let a = 1` then `Eof`. -/
def progMissingSemi : List Token :=
  [tok .Let "let", tok .Ident "a", tok .Equal "=", numTok 1 "1", tok .Eof ""]

/-- A declaration missing its `;` followed by a well-formed declaration:
`let a = 1 let b = 2;` then `Eof`. -/
def progRecovery : List Token :=
  [tok .Let "let", tok .Ident "a", tok .Equal "=", numTok 1 "1",
   tok .Let "let", tok .Ident "b", tok .Equal "=", numTok 2 "2", tok .Semicolon ";", tok .Eof ""]

/-- `{ let a = a; }` then `Eof`: a local whose initializer reads the
local being declared. -/
def progSelfInit : List Token :=
  [tok .LeftBrace "\x7b", tok .Let "let", tok .Ident "a", tok .Equal "=", tok .Ident "a",
   tok .Semicolon ";", tok .RightBrace "\x7d", tok .Eof ""]

/-- `1 + // c` `2;` as a token stream (with `Eof`): the `Comment` token
sits in expression position. -/
def progComment : List Token :=
  [numTok 1 "1", tok .Plus "+", tok .Comment "// c", numTok 2 "2", tok .Semicolon ";", tok .Eof ""]

/-- The same stream without the comment token. -/
def progNoComment : List Token :=
  [numTok 1 "1", tok .Plus "+", numTok 2 "2", tok .Semicolon ";", tok .Eof ""]

/-- What the lexer's stream for `let a = 1; a = a + 5; print a;` becomes
under the token bridge: like `progAssign` but with `print` as an `Ident`
and no `Eof`. -/
def assignSrcToks : List Token :=
  [tok .Let "let", tok .Ident "a", tok .Equal "=", numTok 1 "1", tok .Semicolon ";",
   tok .Ident "a", tok .Equal "=", tok .Ident "a", tok .Plus "+", numTok 5 "5",
   tok .Semicolon ";", tok .Ident "print", tok .Ident "a", tok .Semicolon ";"]

/-- The bridged lexer stream for
`let a = 1; { let a = 2; print a; } print a;`. -/
def shadowSrcToks : List Token :=
  [tok .Let "let", tok .Ident "a", tok .Equal "=", numTok 1 "1", tok .Semicolon ";",
   tok .LeftBrace "\x7b", tok .Let "let", tok .Ident "a", tok .Equal "=", numTok 2 "2",
   tok .Semicolon ";", tok .Ident "print", tok .Ident "a", tok .Semicolon ";",
   tok .RightBrace "\x7d", tok .Ident "print", tok .Ident "a", tok .Semicolon ";"]

/-- A parser state over `toks` at token index `i` with the given chunk
contents and printed lines, all locals popped and at global scope — the
shape of every intermediate state in the stepwise compile proofs
below. -/
def parserAt (toks : List Token) (i : Nat) (instrs : List Opcode) (consts : List Value)
    (printed : List String) : Parser :=
  { tokens := toks, i := i,
    bytecode := { instructions := instrs, constants := consts, lines := [] },
    compiler := Compiler.new, printed := printed }

/-- The interned identifier constant `"a"`. -/
def sA : Value := Value.Obj (Object.String "a")

/-- The interned identifier constant `"print"` (the undefined global the
broken lexer output makes the compiler reference). -/
def sPrint : Value := Value.Obj (Object.String "print")

/-- A numeric constant. -/
def nV (q : ℚ) : Value := Value.Number (F64.fin q)

/-- The panic message of `Parser::current` on an exhausted token
stream. -/
def panicCurrentMsg : String := "index out of bounds: Parser::current"

/-- The printed report for an expression statement missing its `;`. -/
def msgExprStmt : String :=
  "Compiler::Parser => [ERROR]: Compiler::Parser => expression_statement :: Expected ';' at end of statement"

/-- A VM state about to execute `SetGlobal 0` (`constants[0] = "a"`,
global `a` bound, the value `41` on top of the stack). -/
def setGlobalVM : VM :=
  { pc := 0
    chunk := { instructions := [⟨18⟩, ⟨0⟩], constants := [Value.Obj (Object.String "a")], lines := [] }
    stack := [Value.Number (F64.fin 41)]
    globals := [("a", Value.Number (F64.fin 1))]
    output := [] }

/-- The bytecode of `print 0/0 == 0/0;`:
`Constant 0, Constant 1, Div, Constant 2, Constant 3, Div, Equal, Print,
Return` over four `0` constants. -/
def divZeroEqChunk : Chunk :=
  { instructions := [⟨1⟩, ⟨0⟩, ⟨1⟩, ⟨1⟩, ⟨6⟩, ⟨1⟩, ⟨2⟩, ⟨1⟩, ⟨3⟩, ⟨6⟩, ⟨11⟩, ⟨14⟩, ⟨0⟩]
    constants := [Value.Number (F64.fin 0), Value.Number (F64.fin 0),
                  Value.Number (F64.fin 0), Value.Number (F64.fin 0)]
    lines := [] }

/-- The variant tag of a `Value`. -/
def Value.tag : Value → Nat
  | Value.Number _ => 0
  | Value.Boolean _ => 1
  | Value.Nil => 2
  | Value.Obj _ => 3

/-! ## The claims -/

set_option maxHeartbeats 4000000 in
/-- C1: the claim says the full pipeline on `print 1 + 2 * 3;` prints
`7` and completes without error. In fact the pipeline panics while
compiling: the lexer has no `print` keyword (the token is an `Ident`)
and appends no `Eof` token, so the parser's error recovery walks the
cursor past the end of the token vector and `Parser::current` indexes
out of bounds. The second conjunct shows the claim's intent is met from
the compiler down: on the intended token stream (with `Print` and `Eof`
tokens) the rule table gives `*` the higher precedence and the VM
prints exactly `7`. -/
theorem C1_print_precedence_pipeline :
    runSource "print 1 + 2 * 3;" = RunOutcome.compPanic "index out of bounds: Parser::current" ∧
    compileRunOutput progPrint123 = some ["7"] := by
  constructor
  · have hlex : Lex.Lexer.scan_tokens (String.mk (strTrim "print 1 + 2 * 3;")) =
        Except.ok lexPrint123 := rfl
    unfold runSource Compiler.compile_source
    rw [hlex]
    rfl
  · have hc : Compiler.compile progPrint123 =
        CompileResult.ok { instructions := [⟨1⟩, ⟨0⟩, ⟨1⟩, ⟨1⟩, ⟨1⟩, ⟨2⟩, ⟨5⟩, ⟨3⟩, ⟨14⟩, ⟨0⟩],
                           constants := [Value.Number (F64.fin 1), Value.Number (F64.fin 2),
                                         Value.Number (F64.fin 3)],
                           lines := [] } [] := rfl
    unfold compileRunOutput compileRunResult
    rw [hc]
    rfl

set_option maxHeartbeats 1000000 in
/-- C2: executing `SetGlobal K` with the named global present writes the
top of the stack into the globals map and pops nothing — shown on a
concrete VM state (stack unchanged, global updated) and end-to-end on
the intended token stream of `let a = 1; a = a + 5; print a;`, which
compiles and runs to print `6` with global `a = 6` (the assignment's
value stays on the stack for the statement's `Pop`). The last conjunct
shows the claimed run of the actual pipeline does not happen: compiling
the real lexer output panics (no `print` keyword, no `Eof` token). -/
theorem C2_setglobal_does_not_pop :
    ((VM.run execFuel setGlobalVM).stack? = some [Value.Number (F64.fin 41)] ∧
     (VM.run execFuel setGlobalVM).global? "a" = some (Value.Number (F64.fin 41))) ∧
    compileRunOutput progAssign = some ["6"] ∧
    compileRunGlobal progAssign "a" = some (Value.Number (F64.fin 6)) ∧
    runSource "let a = 1; a = a + 5; print a;" =
      RunOutcome.compPanic "index out of bounds: Parser::current" := by
  have d1 : Parser.declaration 255 (parserAt progAssign 0 [] [] []) =
      PStep.ok () (parserAt progAssign 5 [⟨1⟩, ⟨1⟩, ⟨16⟩, ⟨0⟩] [sA, nV 1] []) := rfl
  have d2 : Parser.declaration 254
        (parserAt progAssign 5 [⟨1⟩, ⟨1⟩, ⟨16⟩, ⟨0⟩] [sA, nV 1] []) =
      PStep.ok () (parserAt progAssign 11
        [⟨1⟩, ⟨1⟩, ⟨16⟩, ⟨0⟩, ⟨17⟩, ⟨3⟩, ⟨1⟩, ⟨4⟩, ⟨3⟩, ⟨18⟩, ⟨2⟩, ⟨15⟩]
        [sA, nV 1, sA, sA, nV 5] []) := rfl
  have d3 : Parser.declaration 253
        (parserAt progAssign 11
          [⟨1⟩, ⟨1⟩, ⟨16⟩, ⟨0⟩, ⟨17⟩, ⟨3⟩, ⟨1⟩, ⟨4⟩, ⟨3⟩, ⟨18⟩, ⟨2⟩, ⟨15⟩]
          [sA, nV 1, sA, sA, nV 5] []) =
      PStep.ok () (parserAt progAssign 14
        [⟨1⟩, ⟨1⟩, ⟨16⟩, ⟨0⟩, ⟨17⟩, ⟨3⟩, ⟨1⟩, ⟨4⟩, ⟨3⟩, ⟨18⟩, ⟨2⟩, ⟨15⟩, ⟨17⟩, ⟨5⟩, ⟨14⟩]
        [sA, nV 1, sA, sA, nV 5, sA] []) := rfl
  have hloop : Parser.compileLoop execFuel (parserAt progAssign 0 [] [] []) =
      PStep.ok () (parserAt progAssign 14
        [⟨1⟩, ⟨1⟩, ⟨16⟩, ⟨0⟩, ⟨17⟩, ⟨3⟩, ⟨1⟩, ⟨4⟩, ⟨3⟩, ⟨18⟩, ⟨2⟩, ⟨15⟩, ⟨17⟩, ⟨5⟩, ⟨14⟩]
        [sA, nV 1, sA, sA, nV 5, sA] []) := by
    rw [show execFuel = 255 + 1 from rfl,
        Parser.compileLoop_ok_step 255 _ _ (tok TokenType.Let "let") d1 rfl (by decide),
        show (255 : Nat) = 254 + 1 from rfl,
        Parser.compileLoop_ok_step 254 _ _ (tok TokenType.Ident "a") d2 rfl (by decide),
        show (254 : Nat) = 253 + 1 from rfl,
        Parser.compileLoop_ok_step 253 _ _ (tok TokenType.Print "print") d3 rfl (by decide),
        show (253 : Nat) = 252 + 1 from rfl,
        Parser.compileLoop_eof 252
          (parserAt progAssign 14
            [⟨1⟩, ⟨1⟩, ⟨16⟩, ⟨0⟩, ⟨17⟩, ⟨3⟩, ⟨1⟩, ⟨4⟩, ⟨3⟩, ⟨18⟩, ⟨2⟩, ⟨15⟩, ⟨17⟩, ⟨5⟩, ⟨14⟩]
            [sA, nV 1, sA, sA, nV 5, sA] [])
          (tok TokenType.Eof "") rfl rfl]
  have hc := Compiler.compile_ok_of progAssign _ hloop
  refine ⟨⟨rfl, rfl⟩, ?_, ?_, ?_⟩
  · unfold compileRunOutput compileRunResult
    rw [hc]
    rfl
  · unfold compileRunGlobal compileRunResult
    rw [hc]
    rfl
  · have e1 : Parser.declaration 255 (parserAt assignSrcToks 0 [] [] []) =
        PStep.ok () (parserAt assignSrcToks 5 [⟨1⟩, ⟨1⟩, ⟨16⟩, ⟨0⟩] [sA, nV 1] []) := rfl
    have e2 : Parser.declaration 254
          (parserAt assignSrcToks 5 [⟨1⟩, ⟨1⟩, ⟨16⟩, ⟨0⟩] [sA, nV 1] []) =
        PStep.ok () (parserAt assignSrcToks 11
          [⟨1⟩, ⟨1⟩, ⟨16⟩, ⟨0⟩, ⟨17⟩, ⟨3⟩, ⟨1⟩, ⟨4⟩, ⟨3⟩, ⟨18⟩, ⟨2⟩, ⟨15⟩]
          [sA, nV 1, sA, sA, nV 5] []) := rfl
    have e3 : Parser.declaration 253
          (parserAt assignSrcToks 11
            [⟨1⟩, ⟨1⟩, ⟨16⟩, ⟨0⟩, ⟨17⟩, ⟨3⟩, ⟨1⟩, ⟨4⟩, ⟨3⟩, ⟨18⟩, ⟨2⟩, ⟨15⟩]
            [sA, nV 1, sA, sA, nV 5] []) =
        PStep.panic "index out of bounds: Parser::current" := rfl
    have hloop2 : Parser.compileLoop execFuel (parserAt assignSrcToks 0 [] [] []) =
        PStep.panic "index out of bounds: Parser::current" := by
      rw [show execFuel = 255 + 1 from rfl,
          Parser.compileLoop_ok_step 255 _ _ (tok TokenType.Let "let") e1 rfl (by decide),
          show (255 : Nat) = 254 + 1 from rfl,
          Parser.compileLoop_ok_step 254 _ _ (tok TokenType.Ident "a") e2 rfl (by decide),
          show (254 : Nat) = 253 + 1 from rfl]
      exact Parser.compileLoop_panic_step 253 _ (tok TokenType.Ident "print") _ e3 rfl (by decide)
    have hcomp2 : Compiler.compile (lexAssign.tokens.map Lex.Token.toValue) =
        CompileResult.panic "index out of bounds: Parser::current" := by
      rw [show lexAssign.tokens.map Lex.Token.toValue = assignSrcToks from rfl]
      exact Compiler.compile_panic_of assignSrcToks _ hloop2
    exact runSource_compPanic_of _ _
      (Compiler.compile_source_panic_of _ lexAssign _ rfl rfl hcomp2)

set_option maxHeartbeats 1000000 in
/-- C3: the claim says `let a = 1; { let a = 2; print a; } print a;`
prints `2` then `1`. The actual pipeline panics while compiling (the
lexer emits `Ident` for `print` and no `Eof` token, so error recovery
runs the cursor off the token vector). On the intended token stream the
compiler resolves the inner `a` to local slot 0 (the innermost lexeme
match from the top of the locals stack) and the outer `a` back to the
global, and the VM prints `2` then `1`. -/
theorem C3_block_shadowing :
    compileRunOutput progShadow = some ["2", "1"] ∧
    runSource "let a = 1; { let a = 2; print a; } print a;" =
      RunOutcome.compPanic "index out of bounds: Parser::current" := by
  constructor
  · have d1 : Parser.declaration 255 (parserAt progShadow 0 [] [] []) =
        PStep.ok () (parserAt progShadow 5 [⟨1⟩, ⟨1⟩, ⟨16⟩, ⟨0⟩] [sA, nV 1] []) := rfl
    have d2 : Parser.declaration 254
          (parserAt progShadow 5 [⟨1⟩, ⟨1⟩, ⟨16⟩, ⟨0⟩] [sA, nV 1] []) =
        PStep.ok () (parserAt progShadow 15
          [⟨1⟩, ⟨1⟩, ⟨16⟩, ⟨0⟩, ⟨1⟩, ⟨2⟩, ⟨19⟩, ⟨0⟩, ⟨14⟩, ⟨15⟩]
          [sA, nV 1, nV 2] []) := rfl
    have d3 : Parser.declaration 253
          (parserAt progShadow 15
            [⟨1⟩, ⟨1⟩, ⟨16⟩, ⟨0⟩, ⟨1⟩, ⟨2⟩, ⟨19⟩, ⟨0⟩, ⟨14⟩, ⟨15⟩]
            [sA, nV 1, nV 2] []) =
        PStep.ok () (parserAt progShadow 18
          [⟨1⟩, ⟨1⟩, ⟨16⟩, ⟨0⟩, ⟨1⟩, ⟨2⟩, ⟨19⟩, ⟨0⟩, ⟨14⟩, ⟨15⟩, ⟨17⟩, ⟨3⟩, ⟨14⟩]
          [sA, nV 1, nV 2, sA] []) := rfl
    have hloop : Parser.compileLoop execFuel (parserAt progShadow 0 [] [] []) =
        PStep.ok () (parserAt progShadow 18
          [⟨1⟩, ⟨1⟩, ⟨16⟩, ⟨0⟩, ⟨1⟩, ⟨2⟩, ⟨19⟩, ⟨0⟩, ⟨14⟩, ⟨15⟩, ⟨17⟩, ⟨3⟩, ⟨14⟩]
          [sA, nV 1, nV 2, sA] []) := by
      rw [show execFuel = 255 + 1 from rfl,
          Parser.compileLoop_ok_step 255 _ _ (tok TokenType.Let "let") d1 rfl (by decide),
          show (255 : Nat) = 254 + 1 from rfl,
          Parser.compileLoop_ok_step 254 _ _ (tok TokenType.LeftBrace "\x7b") d2 rfl (by decide),
          show (254 : Nat) = 253 + 1 from rfl,
          Parser.compileLoop_ok_step 253 _ _ (tok TokenType.Print "print") d3 rfl (by decide),
          show (253 : Nat) = 252 + 1 from rfl,
          Parser.compileLoop_eof 252
            (parserAt progShadow 18
              [⟨1⟩, ⟨1⟩, ⟨16⟩, ⟨0⟩, ⟨1⟩, ⟨2⟩, ⟨19⟩, ⟨0⟩, ⟨14⟩, ⟨15⟩, ⟨17⟩, ⟨3⟩, ⟨14⟩]
              [sA, nV 1, nV 2, sA] [])
            (tok TokenType.Eof "") rfl rfl]
    have hc := Compiler.compile_ok_of progShadow _ hloop
    unfold compileRunOutput compileRunResult
    rw [hc]
    rfl
  · have e1 : Parser.declaration 255 (parserAt shadowSrcToks 0 [] [] []) =
        PStep.ok () (parserAt shadowSrcToks 5 [⟨1⟩, ⟨1⟩, ⟨16⟩, ⟨0⟩] [sA, nV 1] []) := rfl
    have e2 : Parser.declaration 254
          (parserAt shadowSrcToks 5 [⟨1⟩, ⟨1⟩, ⟨16⟩, ⟨0⟩] [sA, nV 1] []) =
        PStep.ok () (parserAt shadowSrcToks 15
          [⟨1⟩, ⟨1⟩, ⟨16⟩, ⟨0⟩, ⟨1⟩, ⟨2⟩, ⟨17⟩, ⟨3⟩, ⟨15⟩]
          [sA, nV 1, nV 2, sPrint] [msgExprStmt]) := rfl
    have e3 : Parser.declaration 253
          (parserAt shadowSrcToks 15
            [⟨1⟩, ⟨1⟩, ⟨16⟩, ⟨0⟩, ⟨1⟩, ⟨2⟩, ⟨17⟩, ⟨3⟩, ⟨15⟩]
            [sA, nV 1, nV 2, sPrint] [msgExprStmt]) =
        PStep.panic "index out of bounds: Parser::current" := rfl
    have hloop2 : Parser.compileLoop execFuel (parserAt shadowSrcToks 0 [] [] []) =
        PStep.panic "index out of bounds: Parser::current" := by
      rw [show execFuel = 255 + 1 from rfl,
          Parser.compileLoop_ok_step 255 _ _ (tok TokenType.Let "let") e1 rfl (by decide),
          show (255 : Nat) = 254 + 1 from rfl,
          Parser.compileLoop_ok_step 254 _ _ (tok TokenType.LeftBrace "\x7b") e2 rfl (by decide),
          show (254 : Nat) = 253 + 1 from rfl]
      exact Parser.compileLoop_panic_step 253 _ (tok TokenType.Ident "print") _ e3 rfl (by decide)
    have hcomp2 : Compiler.compile (lexShadow.tokens.map Lex.Token.toValue) =
        CompileResult.panic "index out of bounds: Parser::current" := by
      rw [show lexShadow.tokens.map Lex.Token.toValue = shadowSrcToks from rfl]
      exact Compiler.compile_panic_of shadowSrcToks _ hloop2
    exact runSource_compPanic_of _ _
      (Compiler.compile_source_panic_of _ lexShadow _ rfl rfl hcomp2)

set_option maxHeartbeats 4000000 in
/-- C4 counterexample: the claim says compiling a token stream with a
compile error returns an error to the caller. For `let a = 1` with no
`;` (then `Eof`), `Compiler::compile` returns `Ok` with a chunk — the
error is only printed (`Parser::declaration` catches it and
synchronizes) and never surfaced. -/
theorem C4_swallowed_error_counterexample :
    Compiler.compile progMissingSemi =
      CompileResult.ok { instructions := [⟨1⟩, ⟨1⟩, ⟨0⟩],
                         constants := [Value.Obj (Object.String "a"), Value.Number (F64.fin 1)],
                         lines := [] }
        ["Compiler::Parser => [ERROR]: Compiler::Parser => let_declaration :: Expected ';' after let declaration"] :=
  rfl

set_option maxHeartbeats 4000000 in
/-- C4 amended: `Parser::declaration` catches each parse error, prints
it and synchronizes; `Compiler::compile` then carries on and returns
`Ok` with the partially compiled chunk — compile errors are never
returned to the caller (only lexer errors abort, in `compile_source`).
Here the declaration missing its `;` is reported on stdout and skipped,
the following declaration compiles, and the result is `Ok`. -/
theorem C4_compile_recovers_and_returns_ok :
    Compiler.compile progRecovery =
      CompileResult.ok { instructions := [⟨1⟩, ⟨1⟩, ⟨1⟩, ⟨3⟩, ⟨16⟩, ⟨2⟩, ⟨0⟩],
                         constants := [Value.Obj (Object.String "a"), Value.Number (F64.fin 1),
                                       Value.Obj (Object.String "b"), Value.Number (F64.fin 2)],
                         lines := [] }
        ["Compiler::Parser => [ERROR]: Compiler::Parser => let_declaration :: Expected ';' after let declaration"] :=
  rfl

set_option maxHeartbeats 4000000 in
/-- C5: the claim says every token stream ends with a synthetic `Eof`
token with empty lexeme. `scan_tokens` never appends one: lexing `;`
yields exactly one `Semicolon` token, and lexing `print 1 + 2 * 3;`
yields a stream whose token types end at `Semicolon` — no `Eof`
anywhere. -/
theorem C5_no_eof_terminator :
    Lex.Lexer.scan_tokens ";" =
      Except.ok { tokens := [ltok .Semicolon ";"], errors := [] } ∧
    (Lex.Lexer.scan_tokens "print 1 + 2 * 3;").map (fun r => r.tokens.map Lex.Token.ty) =
      Except.ok [.Ident, .Number, .Plus, .Number, .Star, .Number, .Semicolon] :=
  ⟨rfl, rfl⟩

set_option maxHeartbeats 4000000 in
/-- C6: the claim says lexing `print` hits the keyword table and yields
the `print` keyword kind. The `KEYWORDS` table has no `print` entry (and
`lex.rs`'s `TokenType` has no `Print` variant at all), so `select_ident`
misses and yields `Ident` with lexeme `print`. -/
theorem C6_print_lexes_as_ident :
    Lex.KEYWORDS "print" = none ∧
    Lex.Lexer.scan_tokens "print;" =
      Except.ok { tokens := [ltok .Ident "print", ltok .Semicolon ";"], errors := [] } :=
  ⟨rfl, rfl⟩

set_option maxHeartbeats 4000000 in
/-- C7: the claim says lexing is total and never reads past the end of
the source buffer. For an input ending in a digit (`1`) the digit loop
of `select_number` calls `peek` with the cursor at the end of the
buffer, indexing `source` out of bounds — a panic; likewise
`select_ident` for an input ending in an identifier character (`x`). -/
theorem C7_lexer_reads_past_end :
    Lex.Lexer.scan_tokens "1" = Except.error "index out of bounds: Lexer::peek" ∧
    Lex.Lexer.scan_tokens "x" = Except.error "index out of bounds: Lexer::peek" :=
  ⟨rfl, rfl⟩

set_option maxHeartbeats 4000000 in
/-- C8: the claim says every emitted `GetLocal S` has `S` below the live
local count and the VM stack depth at execution is at least `S + 1`.
For `{ let a = a; }` the compiler accepts the program and emits
`GetLocal 0` (the slot bound is respected: the local `a` is already on
the locals stack), but at execution the initializer runs before any
value occupies slot 0: the stack is empty, `stack[0]` indexes out of
bounds and the VM panics — the depth half of the invariant fails. (The
guard clox uses here is present in `Parser::define_variable` only as a
commented-out `initialize_local` call.) -/
theorem C8_self_init_local_breaks_depth_invariant :
    Compiler.compile progSelfInit =
      CompileResult.ok { instructions := [⟨19⟩, ⟨0⟩, ⟨15⟩, ⟨0⟩], constants := [], lines := [] } [] ∧
    compileRunResult progSelfInit =
      some (VM.RunResult.panic "index out of bounds: VM stack slot") := by
  refine ⟨rfl, ?_⟩
  have hc : Compiler.compile progSelfInit =
      CompileResult.ok { instructions := [⟨19⟩, ⟨0⟩, ⟨15⟩, ⟨0⟩], constants := [], lines := [] } [] :=
    rfl
  unfold compileRunResult
  rw [hc]
  rfl

set_option maxHeartbeats 4000000 in
/-- C9 counterexample: the claim says `a == a` holds for every value,
including every `Number`. `Value`'s `PartialEq` compares numbers with
`f64` `==`, and NaN is not equal to itself; NaN is reachable (`0/0`), so
the chunk for `print 0/0 == 0/0;` prints `false`. -/
theorem C9_nan_reflexivity_counterexample :
    Value.beq (Value.Number F64.nan) (Value.Number F64.nan) = false ∧
    (VM.runChunk divZeroEqChunk).output? = some ["false"] :=
  ⟨rfl, rfl⟩

/-- C9 amended: value equality is reflexive for every value other than
`Number NaN`, and values of different variants are never equal. -/
theorem C9_equality_reflexive_except_nan :
    (∀ a : Value, a ≠ Value.Number F64.nan → Value.beq a a = true) ∧
    (∀ a b : Value, Value.tag a ≠ Value.tag b → Value.beq a b = false) := by
  constructor
  · intro a ha
    match a with
    | Value.Number F64.nan => exact absurd rfl ha
    | Value.Number (F64.fin q) => simp [Value.beq, F64.beq]
    | Value.Number F64.inf => rfl
    | Value.Number F64.neginf => rfl
    | Value.Boolean b => simp [Value.beq]
    | Value.Nil => rfl
    | Value.Obj (Object.String s) => simp [Value.beq]
  · intro a b hab
    match a, b with
    | Value.Number _, Value.Number _ => exact absurd rfl hab
    | Value.Number _, Value.Boolean _ => rfl
    | Value.Number _, Value.Nil => rfl
    | Value.Number _, Value.Obj (Object.String _) => rfl
    | Value.Boolean _, Value.Number _ => rfl
    | Value.Boolean _, Value.Boolean _ => exact absurd rfl hab
    | Value.Boolean _, Value.Nil => rfl
    | Value.Boolean _, Value.Obj (Object.String _) => rfl
    | Value.Nil, Value.Number _ => rfl
    | Value.Nil, Value.Boolean _ => rfl
    | Value.Nil, Value.Nil => exact absurd rfl hab
    | Value.Nil, Value.Obj (Object.String _) => rfl
    | Value.Obj (Object.String _), Value.Number _ => rfl
    | Value.Obj (Object.String _), Value.Boolean _ => rfl
    | Value.Obj (Object.String _), Value.Nil => rfl
    | Value.Obj (Object.String _), Value.Obj (Object.String _) => exact absurd rfl hab

/-- Witness for C9's amended theorem at concrete values. -/
theorem C9_equality_reflexive_except_nan_witness :
    Value.beq Value.Nil Value.Nil = true ∧
    Value.beq Value.Nil (Value.Boolean true) = false :=
  ⟨C9_equality_reflexive_except_nan.1 Value.Nil (by decide),
   C9_equality_reflexive_except_nan.2 Value.Nil (Value.Boolean true) (by decide)⟩

set_option maxHeartbeats 4000000 in
/-- C10: the `Comment` token kind has no prefix or infix rule; the lexer
keeps `Comment` tokens in the stream (`compile_source` passes them to
the compiler unfiltered); and a comment in expression position is not
transparently ignored: compiling `1 + // c` `2;` (with `Eof`) produces
a missing-`;` diagnostic on stdout and a different chunk from the same
stream without the comment (`2` is never parsed, no `Pop` is emitted). -/
theorem C10_comment_token_perturbs_parse :
    (get_parse_rule TokenType.Comment).pfx = none ∧
    (get_parse_rule TokenType.Comment).ifx = none ∧
    (Lex.Lexer.scan_tokens "1 + // c\n2;").map (fun r => r.tokens.map Lex.Token.ty) =
      Except.ok [.Number, .Plus, .Comment, .Number, .Semicolon] ∧
    Compiler.compile progComment =
      CompileResult.ok { instructions := [⟨1⟩, ⟨0⟩, ⟨3⟩, ⟨0⟩],
                         constants := [Value.Number (F64.fin 1)], lines := [] }
        ["Compiler::Parser => [ERROR]: Compiler::Parser => expression_statement :: Expected ';' at end of statement"] ∧
    Compiler.compile progNoComment =
      CompileResult.ok { instructions := [⟨1⟩, ⟨0⟩, ⟨1⟩, ⟨1⟩, ⟨3⟩, ⟨15⟩, ⟨0⟩],
                         constants := [Value.Number (F64.fin 1), Value.Number (F64.fin 2)],
                         lines := [] } [] :=
  ⟨rfl, rfl, rfl, rfl, rfl⟩

end Corrosion
